import Mathlib

/-!
Verification of the minesweeper grid engine and ballistics code of the
blast-sweeper repository.

The grid operations (`createEmptyGrid`, `placeMines`, `revealCell`,
`toggleFlag`, `checkWinCondition`) are translated from
`src/utils/minesweeperLogic.ts`; the ballistics functions
(`solveForPull`/`simulateRange`, `calculateLandingPos`) and the per-frame
projectile update (`animate` in `GameCanvas`) are translated from
`src/App.tsx` and `src/components/GameCanvas.tsx`, with JavaScript numbers
modelled as exact rationals (`ℚ`) and `Math.random()` draws modelled as an
explicit list of sampled cells.
-/

namespace BlastSweeper

/-- `CellStatus` from `src/types.ts`. -/
inductive CellStatus where
  | HIDDEN
  | REVEALED
  | FLAGGED
  | EXPLODED
deriving DecidableEq, Repr

/-- `Cell` from `src/types.ts`: position, mine flag, status and the
stored adjacent-mine count. -/
structure Cell where
  row : Nat
  col : Nat
  isMine : Bool
  status : CellStatus
  neighborMines : Nat
deriving DecidableEq, Repr

/-- Grids are 2D arrays of cells, row major (`Cell[][]`). -/
abbrev Grid := List (List Cell)

/-- Placeholder cell returned for an out-of-range access.  The TypeScript
code never reads out of range on the square grids it builds (doing so would
throw), so this value is free; its status is deliberately not `HIDDEN`. -/
def defaultCell : Cell := ⟨0, 0, false, CellStatus.REVEALED, 0⟩

/-- `grid[r][c]`. -/
def getCell (g : Grid) (r c : Nat) : Cell :=
  (g.getD r []).getD c defaultCell

/-- In-place update of a list at one index (no-op out of range), used to
model the TypeScript mutations of a single cell. -/
def modifyAt {α : Type} (f : α → α) : List α → Nat → List α
  | [], _ => []
  | a :: as, 0 => f a :: as
  | a :: as, i + 1 => a :: modifyAt f as i

/-- Mutation of one cell of a grid. -/
def modifyCell (g : Grid) (r c : Nat) (f : Cell → Cell) : Grid :=
  modifyAt (fun row => modifyAt f row c) g r

/-- `newGrid[r][c].status = s`. -/
def setCellStatus (g : Grid) (r c : Nat) (s : CellStatus) : Grid :=
  modifyCell g r c (fun cell => { cell with status := s })

/-- `newGrid[r][c].isMine = true`. -/
def setCellMine (g : Grid) (r c : Nat) : Grid :=
  modifyCell g r c (fun cell => { cell with isMine := true })

/-- `newGrid[r][c].neighborMines = n`. -/
def setCellNeighbor (g : Grid) (r c : Nat) (n : Nat) : Grid :=
  modifyCell g r c (fun cell => { cell with neighborMines := n })

/-- `createEmptyGrid` from `minesweeperLogic.ts`. -/
def createEmptyGrid (size : Nat) : Grid :=
  (List.range size).map (fun r =>
    (List.range size).map (fun c => ⟨r, c, false, CellStatus.HIDDEN, 0⟩))

/-- The per-call defensive copy `grid.map(row => row.map(cell => ({...cell})))`
performed by `placeMines`, `revealCell` and `toggleFlag`: every cell record is
rebuilt field by field. -/
def copyGrid (g : Grid) : Grid :=
  g.map (fun row => row.map (fun c =>
    ⟨c.row, c.col, c.isMine, c.status, c.neighborMines⟩))

/-- The grid is square with the given side (`grid.length`), as all grids
built by the game are. -/
def SquareGrid (g : Grid) : Prop := ∀ row ∈ g, row.length = g.length

/-- `checkWinCondition` from `minesweeperLogic.ts`: scans all `grid.length ×
grid.length` positions and fails on a non-mine cell that is not revealed. -/
def checkWinCondition (g : Grid) : Bool :=
  (List.range g.length).all (fun r =>
    (List.range g.length).all (fun c =>
      let cell := getCell g r c
      cell.isMine || cell.status == CellStatus.REVEALED))

/-! ### The flood-fill loop of `revealCell`

The TypeScript `while (stack.length > 0)` loop terminates because every
iteration either shrinks the stack or reveals a previously hidden cell.  We
realise it as a structurally recursive function on a fuel argument and prove
that any fuel above the measure `9 * hiddenCount + stack.length` computes the
loop's actual (fuel-independent) result. -/

/-- Number of `HIDDEN` cells of the grid. -/
def hiddenCount (g : Grid) : Nat :=
  (g.map (fun row => row.countP (fun c => c.status == CellStatus.HIDDEN))).sum

/-- The nine offsets pushed by the flood fill (`dr`, `dc` each ranging over
`-1..1`, centre included). -/
def offsets9 : List (Int × Int) :=
  [(-1,-1),(-1,0),(-1,1),(0,-1),(0,0),(0,1),(1,-1),(1,0),(1,1)]

/-- The JavaScript stack is an array with `push`/`pop` at the end; we model
it as a list whose head is the next element popped, so a push batch is
reversed onto the front. -/
def floodPushes (r c : Int) : List (Int × Int) :=
  (offsets9.map (fun d => (r + d.1, c + d.2))).reverse

/-- One execution of the flood-fill `while` loop body per recursive call,
with fuel.  The guard mirrors
`r < 0 || r >= newGrid.length || c < 0 || c >= newGrid.length || status !== HIDDEN`. -/
def floodLoopF : Nat → Grid → List (Int × Int) → Grid
  | 0, g, _ => g
  | _ + 1, g, [] => g
  | fuel + 1, g, (r, c) :: rest =>
    if r < 0 ∨ (g.length : Int) ≤ r ∨ c < 0 ∨ (g.length : Int) ≤ c ∨
        (getCell g r.toNat c.toNat).status ≠ CellStatus.HIDDEN then
      floodLoopF fuel g rest
    else
      let g' := setCellStatus g r.toNat c.toNat CellStatus.REVEALED
      if (getCell g' r.toNat c.toNat).neighborMines = 0 then
        floodLoopF fuel g' (floodPushes r c ++ rest)
      else
        floodLoopF fuel g' rest

/-- Loop measure: strictly decreases at every iteration. -/
def floodMeasure (g : Grid) (stack : List (Int × Int)) : Nat :=
  9 * hiddenCount g + stack.length

/-- The flood-fill loop itself: any adequate fuel gives the same result
(`floodLoopF_fuel_irrel`). -/
def floodLoop (g : Grid) (stack : List (Int × Int)) : Grid :=
  floodLoopF (floodMeasure g stack + 1) g stack

/-- `revealCell` from `minesweeperLogic.ts`. -/
def revealCell (g : Grid) (row col : Nat) : Grid × Bool :=
  let newGrid := copyGrid g
  let cell := getCell newGrid row col
  if cell.status ≠ CellStatus.HIDDEN then (newGrid, false)
  else if cell.isMine then (setCellStatus newGrid row col CellStatus.EXPLODED, true)
  else (floodLoop newGrid [((row : Int), (col : Int))], false)

/-- `toggleFlag` from `minesweeperLogic.ts`. -/
def toggleFlag (g : Grid) (row col : Nat) : Grid :=
  let newGrid := copyGrid g
  let cell := getCell newGrid row col
  if cell.status = CellStatus.HIDDEN then setCellStatus newGrid row col CellStatus.FLAGGED
  else if cell.status = CellStatus.FLAGGED then setCellStatus newGrid row col CellStatus.HIDDEN
  else newGrid

/-! ### placeMines (C1) -/

/-- The safe-zone test of `placeMines`:
`Math.abs(r - safeRow) <= 1 && Math.abs(c - safeCol) <= 1`. -/
def isSafeZone (r c safeRow safeCol : Nat) : Bool :=
  decide (((r : Int) - safeRow).natAbs ≤ 1) && decide (((c : Int) - safeCol).natAbs ≤ 1)

/-- The rejection-sampling `while (minesPlaced < mineCount)` loop of
`placeMines`.  The successive draws of `Math.floor(Math.random() * size)`
pairs are modelled by the explicit list `picks`; the result is `none` when
that list is exhausted before `mineCount` mines are placed (the source loop
would simply keep drawing, so terminating runs are exactly the `some` runs
on a long enough draw list). -/
def placeMinesLoop (mineCount safeRow safeCol : Nat) :
    List (Nat × Nat) → Grid → Nat → Option Grid
  | picks, g, placed =>
    if mineCount ≤ placed then some g
    else
      match picks with
      | [] => none
      | (r, c) :: rest =>
        if (getCell g r c).isMine = false ∧ isSafeZone r c safeRow safeCol = false then
          placeMinesLoop mineCount safeRow safeCol rest (setCellMine g r c) (placed + 1)
        else
          placeMinesLoop mineCount safeRow safeCol rest g placed

/-- The condition of the inner `dr`/`dc` loop of the number-recomputation
phase: neighbor offset `d` is in range and holds a mine. -/
def adjMineB (g : Grid) (size r c : Nat) (d : Int × Int) : Bool :=
  let nr := (r : Int) + d.1
  let nc := (c : Int) + d.2
  decide (0 ≤ nr) && decide (nr < (size : Int)) && decide (0 ≤ nc) &&
    decide (nc < (size : Int)) && (getCell g nr.toNat nc.toNat).isMine

/-- The count accumulated by the `dr`/`dc` double loop (`dr`, `dc` ranging
over `-1..1`, centre included — the centre contributes nothing because the
count is only computed for non-mine cells). -/
def countAdjMines (g : Grid) (size r c : Nat) : Nat :=
  (offsets9.filter (adjMineB g size r c)).length

/-- The "Calculate numbers" phase of `placeMines`: every non-mine cell of
the `size × size` grid gets its `neighborMines` overwritten with the
recomputed count.  The in-place double loop only writes `neighborMines` of
non-mine cells and only reads `isMine`, so it is rendered as an index-based
rebuild. -/
def computeNumbers (g : Grid) : Grid :=
  (List.range g.length).map (fun r =>
    (List.range g.length).map (fun c =>
      let cell := getCell g r c
      if cell.isMine then cell
      else { cell with neighborMines := countAdjMines g g.length r c }))

/-- `placeMines` from `minesweeperLogic.ts`. -/
def placeMines (g : Grid) (mineCount safeRow safeCol : Nat)
    (picks : List (Nat × Nat)) : Option Grid :=
  (placeMinesLoop mineCount safeRow safeCol picks (copyGrid g) 0).map computeNumbers

/-! Specification-side vocabulary for C1. -/

/-- Chebyshev distance between two cells. -/
def chebDist (r c sr sc : Nat) : Nat :=
  max ((r : Int) - sr).natAbs ((c : Int) - sc).natAbs

/-- Number of cells of the grid with `isMine = true`. -/
def mineCountRows (g : Grid) : Nat :=
  (g.map (fun row => row.countP (fun cl => cl.isMine))).sum

/-- The 8-neighborhood offsets (centre excluded), as in the claim. -/
def offsets8 : List (Int × Int) :=
  [(-1,-1),(-1,0),(-1,1),(0,-1),(0,1),(1,-1),(1,0),(1,1)]

/-- Number of mines among the in-range 8-neighborhood of a cell (the
claim's description of a correct `neighborMines` value). -/
def neighborMineCount8 (g : Grid) (size r c : Nat) : Nat :=
  (offsets8.filter (adjMineB g size r c)).length

/-- Shape predicate: `size` rows each of length `size`. -/
def GridShape (g : Grid) (size : Nat) : Prop :=
  g.length = size ∧ ∀ i, i < size → (g.getD i []).length = size

/-! ### initLevel (C9)

From `App.tsx`: `const size = Math.min(START_SIZE + (lvl - 1) * SIZE_INCREMENT, MAX_SIZE)`
and `const mines = Math.floor(size * size * Math.min(0.10 + lvl * 0.01, 0.20))`,
with `START_SIZE = 5`, `SIZE_INCREMENT = 5`, `MAX_SIZE = 30`.  JavaScript
numbers are modelled as exact rationals; the IEEE-double computation yields
the same floors for every level. -/

/-- Grid size set by `initLevel` for level `lvl`. -/
def initLevelSize (lvl : Nat) : Nat := min (5 + (lvl - 1) * 5) 30

/-- Mine count set by `initLevel` for level `lvl`. -/
def initLevelMines (lvl : Nat) : Int :=
  Int.floor ((initLevelSize lvl * initLevelSize lvl : ℚ) *
    min ((10 : ℚ)/100 + lvl * ((1 : ℚ)/100)) ((20 : ℚ)/100))

/-! ### calculateLandingPos (C8)

From `App.tsx` (`PHYS_GRAVITY = 0.5`, `PHYS_DRAG = 0.995`):
`x += vx; y += vy; z += currVz; currVz -= PHYS_GRAVITY; vx *= PHYS_DRAG; vy *= PHYS_DRAG;`
inside a `for (i = 0; i < 800; i++)` loop that breaks once `z <= 0`. -/

/-- Projectile integration state (ground-plane position, altitude,
velocities). -/
structure PState where
  x : ℚ
  y : ℚ
  z : ℚ
  vx : ℚ
  vy : ℚ
  vz : ℚ
deriving DecidableEq, Repr

/-- One integration tick. -/
def physTick (s : PState) : PState :=
  ⟨s.x + s.vx, s.y + s.vy, s.z + s.vz,
    s.vx * (995/1000), s.vy * (995/1000), s.vz - 1/2⟩

/-- `n` integration ticks from a start state. -/
def tickIter : Nat → PState → PState
  | 0, s => s
  | n + 1, s => tickIter n (physTick s)

/-- The bounded landing loop: run up to `fuel` ticks, stopping at the first
tick after which `z ≤ 0`. -/
def landingLoop : Nat → PState → PState
  | 0, s => s
  | n + 1, s =>
    let s' := physTick s
    if s'.z ≤ 0 then s' else landingLoop n s'

/-- `calculateLandingPos` from `App.tsx`: starts at altitude 0 and returns
the ground-plane position after the loop. -/
def calculateLandingPos (startPos : ℚ × ℚ) (velocity : ℚ × ℚ) (vz : ℚ) : ℚ × ℚ :=
  let s := landingLoop 800 ⟨startPos.1, startPos.2, 0, velocity.1, velocity.2, vz⟩
  (s.x, s.y)

/-! ### The per-frame projectile update of `GameCanvas` (C4)

From `GameCanvas.tsx` `animate`: when the projectile is active, integrate one
tick, then run two independent `if` statements: one fires `onHit` when
`z <= 0` (landing), the other fires `onHit` when the position left the
margin (`y < -100 || x < -100 || x > width + 100`).  Because the second is
not an `else if`, a tick in which both conditions hold calls `onHit`
twice. -/

/-- An in-flight projectile as mutated by `animate` (ground position,
altitude, velocities, active flag). -/
structure ProjState where
  px : ℚ
  py : ℚ
  z : ℚ
  vx : ℚ
  vy : ℚ
  vz : ℚ
  active : Bool
deriving DecidableEq, Repr

/-- One `animate` frame applied to the active projectile: returns the
updated projectile and the number of `onHit` resolution callbacks invoked
during the frame. -/
def animateTick (p : ProjState) (width : ℚ) : ProjState × Nat :=
  if p.active then
    let p1 : ProjState :=
      ⟨p.px + p.vx, p.py + p.vy, p.z + p.vz,
        p.vx * (995/1000), p.vy * (995/1000), p.vz - 1/2, p.active⟩
    let land := if p1.z ≤ 0 then (⟨p1.px, p1.py, 0, p1.vx, p1.vy, p1.vz, false⟩, 1)
      else (p1, (0 : Nat))
    let p2 := land.1
    let oob := if p2.py < -100 ∨ p2.px < -100 ∨ p2.px > width + 100 then
      (⟨p2.px, p2.py, p2.z, p2.vx, p2.vy, p2.vz, false⟩, 1) else (p2, (0 : Nat))
    (oob.1, land.2 + oob.2)
  else (p, 0)

/-! ### solveForPull and its straight-line range simulation (C7)

From `App.tsx` `solveForPull`: a 30-iteration binary search for a pull
magnitude in `[0, 3000]`; each candidate is scored by `simulateRange`, the
1-D integration `d += vH; h += vZ; vZ -= PHYS_GRAVITY; vH *= PHYS_DRAG`
capped at 800 ticks and stopped at the first tick with `h <= 0`. -/

/-- The body of `simulateRange`, fuel = the `for (i = 0; i < 800; i++)`
counter. -/
def simLoop : Nat → ℚ → ℚ → ℚ → ℚ → ℚ
  | 0, _, _, _, d => d
  | n + 1, vH, vZ, h, d =>
    let d' := d + vH
    let h' := h + vZ
    let vZ' := vZ - 1/2
    let vH' := vH * (995/1000)
    if h' ≤ 0 then d' else simLoop n vH' vZ' h' d'

/-- `simulateRange` from `solveForPull`. -/
def simulateRange (pull : ℚ) : ℚ :=
  simLoop 800 (pull * (15/100)) (pull * (15/100)) 0 0

/-- The binary-search loop of `solveForPull` (the `mid` binding is inlined;
it is computed once per iteration in the source). -/
def solveLoop : Nat → ℚ → ℚ → ℚ → ℚ × ℚ
  | 0, mn, mx, _ => (mn, mx)
  | n + 1, mn, mx, t =>
    if simulateRange ((mn + mx) / 2) < t then solveLoop n ((mn + mx) / 2) mx t
    else solveLoop n mn ((mn + mx) / 2) t

/-- `solveForPull` from `App.tsx`: 30 bisection steps on `[0, 3000]`, then
the midpoint of the final bracket. -/
def solveForPull (d : ℚ) : ℚ :=
  ((solveLoop 30 0 3000 d).1 + (solveLoop 30 0 3000 d).2) / 2

/-- Absorbing-state form of one `simulateRange` tick, used to evaluate the
loop in bounded chunks: after the `h ≤ 0` break the state is frozen. -/
structure SimState where
  vH : ℚ
  vZ : ℚ
  h : ℚ
  d : ℚ
  landed : Bool
deriving DecidableEq, Repr

def simStep (s : SimState) : SimState :=
  if s.landed then s
  else
    if s.h + s.vZ ≤ 0 then
      ⟨s.vH * (995/1000), s.vZ - 1/2, s.h + s.vZ, s.d + s.vH, true⟩
    else
      ⟨s.vH * (995/1000), s.vZ - 1/2, s.h + s.vZ, s.d + s.vH, false⟩

def stepIter : Nat → SimState → SimState
  | 0, s => s
  | n + 1, s => stepIter n (simStep s)

/-- Initial `simulateRange` state for a candidate pull. -/
def simInit (pull : ℚ) : SimState :=
  ⟨pull * (15/100), pull * (15/100), 0, 0, false⟩

/-! ### C2: characterisation of the flood fill -/

/-- Chebyshev adjacency (distance at most 1; includes the cell itself,
matching the loop's centre push, which the status filter discards). -/
def chebAdj (a b : Nat × Nat) : Prop :=
  ((a.1 : Int) - b.1).natAbs ≤ 1 ∧ ((a.2 : Int) - b.2).natAbs ≤ 1

/-- In range of the square grid (the loop bounds both coordinates by
`grid.length`). -/
def InRangeP (g : Grid) (q : Nat × Nat) : Prop := q.1 < g.length ∧ q.2 < g.length

def HiddenP (g : Grid) (q : Nat × Nat) : Prop :=
  (getCell g q.1 q.2).status = CellStatus.HIDDEN

def ZeroP (g : Grid) (q : Nat × Nat) : Prop :=
  (getCell g q.1 q.2).neighborMines = 0

/-- One propagation step of the fill: move to an adjacent in-range cell that
is still hidden and has a zero count. -/
def zstep (g : Grid) (a b : Nat × Nat) : Prop :=
  chebAdj a b ∧ InRangeP g b ∧ HiddenP g b ∧ ZeroP g b

/-- The hidden zero-region actually flooded: cells reachable from the start
through hidden zero-count cells. -/
def ZComp (g : Grid) (s q : Nat × Nat) : Prop := Relation.ReflTransGen (zstep g) s q

/-- The set of cells the fill reveals (amended claim): hidden in-range cells
belonging to, or adjacent to, the hidden zero-region of the start. -/
def RevealTarget (g : Grid) (s q : Nat × Nat) : Prop :=
  InRangeP g q ∧ HiddenP g q ∧ ∃ a, ZComp g s a ∧ chebAdj a q

/-- The connected zero-region as the original claim words it: status is not
consulted, only `neighborMines = 0`. -/
def zstepOrig (g : Grid) (a b : Nat × Nat) : Prop :=
  chebAdj a b ∧ InRangeP g b ∧ ZeroP g b

def ZCompOrig (g : Grid) (s q : Nat × Nat) : Prop :=
  Relation.ReflTransGen (zstepOrig g) s q

/-- The claim's hypothesis that stored counts are accurate: every in-range
non-mine cell's `neighborMines` equals the number of mines among its
in-range 8-neighborhood. -/
def AccurateCounts (g : Grid) : Prop :=
  ∀ r, r < g.length → ∀ c, c < g.length → (getCell g r c).isMine = false →
    (getCell g r c).neighborMines = neighborMineCount8 g g.length r c

/-- Frame relation maintained by the fill: relative to the initial grid,
only cells of `S` may change, and only from `HIDDEN` to `REVEALED`. -/
def FrameRel (g0 : Grid) (S : Nat × Nat → Prop) (g : Grid) : Prop :=
  g.length = g0.length ∧ (∀ i, (g.getD i []).length = (g0.getD i []).length) ∧
  ∀ i j, getCell g i j = getCell g0 i j ∨
    (S (i, j) ∧ (getCell g0 i j).status = CellStatus.HIDDEN ∧
      getCell g i j = { getCell g0 i j with status := CellStatus.REVEALED })

/-- Every pending stack entry that denotes an in-range hidden cell lies in
`S`. -/
def StackOK (g0 : Grid) (S : Nat × Nat → Prop) (st : List (Int × Int)) : Prop :=
  ∀ p ∈ st, 0 ≤ p.1 → 0 ≤ p.2 →
    InRangeP g0 (p.1.toNat, p.2.toNat) → HiddenP g0 (p.1.toNat, p.2.toNat) →
    S (p.1.toNat, p.2.toNat)

/-- Status-only frame (the `FrameRel` with the trivial set). -/
abbrev WeakFrame (g0 g : Grid) : Prop := FrameRel g0 (fun _ => True) g

/-- Every cell revealed since the start whose count is zero has all of its
still-hidden in-range neighbours pending on the stack. -/
def PendingOK (g0 g : Grid) (st : List (Int × Int)) : Prop :=
  ∀ q : Nat × Nat, (getCell g0 q.1 q.2).status = CellStatus.HIDDEN →
    (getCell g q.1 q.2).status = CellStatus.REVEALED →
    (getCell g0 q.1 q.2).neighborMines = 0 →
    ∀ b : Nat × Nat, chebAdj q b → InRangeP g0 b →
      (getCell g b.1 b.2).status = CellStatus.HIDDEN →
      ((b.1 : Int), (b.2 : Int)) ∈ st

/-- 3×3 grid with no mines (all counts 0, hence accurate) whose middle
column is flagged: the flagged zero cells cut the zero-region in two. -/
def cexGrid : Grid :=
  [[⟨0,0,false,CellStatus.HIDDEN,0⟩, ⟨0,1,false,CellStatus.FLAGGED,0⟩, ⟨0,2,false,CellStatus.HIDDEN,0⟩],
   [⟨1,0,false,CellStatus.HIDDEN,0⟩, ⟨1,1,false,CellStatus.FLAGGED,0⟩, ⟨1,2,false,CellStatus.HIDDEN,0⟩],
   [⟨2,0,false,CellStatus.HIDDEN,0⟩, ⟨2,1,false,CellStatus.FLAGGED,0⟩, ⟨2,2,false,CellStatus.HIDDEN,0⟩]]

/-- 2×2 mine-free all-hidden grid for the amended-claim witness. -/
def c2wGrid : Grid :=
  [[⟨0,0,false,CellStatus.HIDDEN,0⟩, ⟨0,1,false,CellStatus.HIDDEN,0⟩],
   [⟨1,0,false,CellStatus.HIDDEN,0⟩, ⟨1,1,false,CellStatus.HIDDEN,0⟩]]

/-! ### Basic lemmas about the list machinery -/

theorem length_modifyAt {α : Type} (f : α → α) :
    ∀ (l : List α) (i : Nat), (modifyAt f l i).length = l.length := by
  intro l
  induction l with
  | nil => intro i; rfl
  | cons a as ih =>
    intro i
    cases i with
    | zero => rfl
    | succ j => simpa [modifyAt] using ih j

theorem getD_modifyAt {α : Type} (f : α → α) (d : α) :
    ∀ (l : List α) (i j : Nat),
      (modifyAt f l i).getD j d =
        if i = j ∧ j < l.length then f (l.getD j d) else l.getD j d := by
  intro l
  induction l with
  | nil => intro i j; simp [modifyAt]
  | cons a as ih =>
    intro i j
    cases i with
    | zero =>
      cases j with
      | zero => simp [modifyAt]
      | succ j' => simp [modifyAt]
    | succ i' =>
      cases j with
      | zero => simp [modifyAt]
      | succ j' =>
        simp only [modifyAt, List.getD_cons_succ, List.length_cons]
        rw [ih i' j']
        by_cases h : i' = j' ∧ j' < as.length
        · rw [if_pos h, if_pos ⟨by omega, by omega⟩]
        · rw [if_neg h, if_neg (by omega)]

theorem length_modifyCell (g : Grid) (r c : Nat) (f : Cell → Cell) :
    (modifyCell g r c f).length = g.length :=
  length_modifyAt _ g r

theorem getD_row_modifyCell (g : Grid) (r c : Nat) (f : Cell → Cell) (i : Nat) :
    ((modifyCell g r c f).getD i []).length = (g.getD i []).length := by
  unfold modifyCell
  rw [getD_modifyAt]
  by_cases h : r = i ∧ i < g.length
  · rw [if_pos h, length_modifyAt]
  · rw [if_neg h]

theorem getCell_modifyCell (g : Grid) (r c : Nat) (f : Cell → Cell) (i j : Nat) :
    getCell (modifyCell g r c f) i j =
      if r = i ∧ c = j ∧ i < g.length ∧ j < (g.getD i []).length then
        f (getCell g i j)
      else getCell g i j := by
  unfold getCell modifyCell
  rw [getD_modifyAt]
  by_cases hr : r = i ∧ i < g.length
  · rw [if_pos hr]
    rw [getD_modifyAt]
    by_cases hc : c = j ∧ j < (g.getD i []).length
    · rw [if_pos hc, if_pos ⟨hr.1, hc.1, hr.2, hc.2⟩]
    · rw [if_neg hc, if_neg (by tauto)]
  · rw [if_neg hr, if_neg (by tauto)]

theorem copyGrid_eq (g : Grid) : copyGrid g = g := by
  unfold copyGrid
  have hcell : ∀ c : Cell,
      (⟨c.row, c.col, c.isMine, c.status, c.neighborMines⟩ : Cell) = c := by
    intro c; rfl
  have hrow : ∀ row : List Cell,
      row.map (fun c => (⟨c.row, c.col, c.isMine, c.status, c.neighborMines⟩ : Cell)) = row := by
    intro row
    simp [hcell]
  simp [hrow]

/-! ### checkWinCondition (C3) -/

theorem checkWinCondition_iff (g : Grid) :
    checkWinCondition g = true ↔
      ∀ r < g.length, ∀ c < g.length,
        (getCell g r c).isMine = false → (getCell g r c).status = CellStatus.REVEALED := by
  unfold checkWinCondition
  simp only [List.all_eq_true, List.mem_range]
  constructor
  · intro h r hr c hc hm
    have := h r hr c hc
    simp only [Bool.or_eq_true, beq_iff_eq] at this
    rcases this with h1 | h1
    · rw [hm] at h1; cases h1
    · exact h1
  · intro h r hr c hc
    simp only [Bool.or_eq_true, beq_iff_eq]
    by_cases hm : (getCell g r c).isMine = true
    · exact Or.inl hm
    · exact Or.inr (h r hr c hc (by simpa using hm))

/-- **C3.** `checkWinCondition(grid)` is true iff every non-mine cell is
Revealed, and changing the status of any mine cell never changes the
result. -/
theorem checkWinCondition_spec (g : Grid) (_hsq : SquareGrid g) :
    (checkWinCondition g = true ↔
      ∀ r < g.length, ∀ c < g.length,
        (getCell g r c).isMine = false →
          (getCell g r c).status = CellStatus.REVEALED) ∧
    (∀ r c (s : CellStatus), (getCell g r c).isMine = true →
      checkWinCondition (setCellStatus g r c s) = checkWinCondition g) := by
  refine ⟨checkWinCondition_iff g, ?_⟩
  intro r c s hm
  have hlen : (setCellStatus g r c s).length = g.length :=
    length_modifyCell g r c _
  have hget : ∀ i j, i < g.length → j < g.length →
      ((getCell (setCellStatus g r c s) i j).isMine = (getCell g i j).isMine ∧
       ((getCell g i j).isMine = false →
         getCell (setCellStatus g r c s) i j = getCell g i j)) := by
    intro i j _ _
    unfold setCellStatus
    rw [getCell_modifyCell]
    by_cases h : r = i ∧ c = j ∧ i < g.length ∧ j < (g.getD i []).length
    · rw [if_pos h]
      refine ⟨rfl, ?_⟩
      intro hmf
      exfalso
      rcases h with ⟨h1, h2, _, _⟩
      subst h1; subst h2
      rw [hm] at hmf; cases hmf
    · rw [if_neg h]; exact ⟨rfl, fun _ => rfl⟩
  have h1 := checkWinCondition_iff (setCellStatus g r c s)
  have h2 := checkWinCondition_iff g
  cases hw : checkWinCondition g with
  | true =>
    rw [h2] at hw
    have : checkWinCondition (setCellStatus g r c s) = true := by
      rw [h1, hlen]
      intro i hi j hj hmf
      have hij := hget i j hi hj
      have hmf' : (getCell g i j).isMine = false := by rw [← hij.1]; exact hmf
      rw [hij.2 hmf']
      exact hw i hi j hj hmf'
    rw [this]
  | false =>
    have hw' : ¬ checkWinCondition g = true := by simp [hw]
    rw [h2] at hw'
    push_neg at hw'
    obtain ⟨i, hi, j, hj, hmf, hst⟩ := hw'
    have : ¬ checkWinCondition (setCellStatus g r c s) = true := by
      rw [h1, hlen]
      push_neg
      have hij := hget i j hi hj
      refine ⟨i, hi, j, hj, ?_, ?_⟩
      · rw [hij.1]; exact hmf
      · rw [hij.2 hmf]; exact hst
    simp only [Bool.not_eq_true] at this
    rw [this]

/-- Witness for C3 on a concrete 2×2 grid. -/
theorem checkWinCondition_spec_witness :
    (checkWinCondition [[⟨0,0,false,CellStatus.REVEALED,1⟩, ⟨0,1,true,CellStatus.HIDDEN,0⟩],
                        [⟨1,0,true,CellStatus.FLAGGED,0⟩, ⟨1,1,false,CellStatus.REVEALED,2⟩]] = true ↔
      ∀ r < 2, ∀ c < 2,
        (getCell [[⟨0,0,false,CellStatus.REVEALED,1⟩, ⟨0,1,true,CellStatus.HIDDEN,0⟩],
                  [⟨1,0,true,CellStatus.FLAGGED,0⟩, ⟨1,1,false,CellStatus.REVEALED,2⟩]] r c).isMine = false →
          (getCell [[⟨0,0,false,CellStatus.REVEALED,1⟩, ⟨0,1,true,CellStatus.HIDDEN,0⟩],
                    [⟨1,0,true,CellStatus.FLAGGED,0⟩, ⟨1,1,false,CellStatus.REVEALED,2⟩]] r c).status = CellStatus.REVEALED) ∧
    (∀ r c (s : CellStatus),
      (getCell [[⟨0,0,false,CellStatus.REVEALED,1⟩, ⟨0,1,true,CellStatus.HIDDEN,0⟩],
                [⟨1,0,true,CellStatus.FLAGGED,0⟩, ⟨1,1,false,CellStatus.REVEALED,2⟩]] r c).isMine = true →
      checkWinCondition (setCellStatus [[⟨0,0,false,CellStatus.REVEALED,1⟩, ⟨0,1,true,CellStatus.HIDDEN,0⟩],
                                        [⟨1,0,true,CellStatus.FLAGGED,0⟩, ⟨1,1,false,CellStatus.REVEALED,2⟩]] r c s) =
        checkWinCondition [[⟨0,0,false,CellStatus.REVEALED,1⟩, ⟨0,1,true,CellStatus.HIDDEN,0⟩],
                           [⟨1,0,true,CellStatus.FLAGGED,0⟩, ⟨1,1,false,CellStatus.REVEALED,2⟩]]) := by
  have h := checkWinCondition_spec
    [[⟨0,0,false,CellStatus.REVEALED,1⟩, ⟨0,1,true,CellStatus.HIDDEN,0⟩],
     [⟨1,0,true,CellStatus.FLAGGED,0⟩, ⟨1,1,false,CellStatus.REVEALED,2⟩]]
    (by
      intro row hrow
      simp only [List.mem_cons, List.not_mem_nil, or_false] at hrow
      rcases hrow with h | h <;> subst h <;> rfl)
  simpa using h

theorem countP_modifyAt {α : Type} (p : α → Bool) (f : α → α) (d : α) :
    ∀ (l : List α) (i : Nat), i < l.length →
      (modifyAt f l i).countP p + (if p (l.getD i d) then 1 else 0) =
        l.countP p + (if p (f (l.getD i d)) then 1 else 0) := by
  intro l
  induction l with
  | nil => intro i hi; simp at hi
  | cons a as ih =>
    intro i hi
    cases i with
    | zero =>
      simp only [modifyAt, List.getD_cons_zero, List.countP_cons]
      omega
    | succ j =>
      simp only [modifyAt, List.getD_cons_succ, List.countP_cons]
      have := ih j (by simpa using Nat.lt_of_succ_lt_succ hi)
      omega

theorem summap_modifyAt {α : Type} (h : α → Nat) (f : α → α) (d : α) :
    ∀ (l : List α) (i : Nat), i < l.length →
      ((modifyAt f l i).map h).sum + h (l.getD i d) =
        (l.map h).sum + h (f (l.getD i d)) := by
  intro l
  induction l with
  | nil => intro i hi; simp at hi
  | cons a as ih =>
    intro i hi
    cases i with
    | zero => simp [modifyAt]; omega
    | succ j =>
      simp only [modifyAt, List.getD_cons_succ, List.map_cons, List.sum_cons]
      have := ih j (by simpa using Nat.lt_of_succ_lt_succ hi)
      omega

/-- A cell read back as `HIDDEN` is a genuine in-bounds access (the
out-of-range placeholder is `REVEALED`). -/
theorem hidden_inbounds (g : Grid) (r c : Nat)
    (h : (getCell g r c).status = CellStatus.HIDDEN) :
    r < g.length ∧ c < (g.getD r []).length := by
  constructor
  · by_contra hr
    have : g.getD r [] = [] := List.getD_eq_default _ _ (by omega)
    rw [getCell, this] at h
    simp [defaultCell] at h
  · by_contra hc
    have : (g.getD r []).getD c defaultCell = defaultCell :=
      List.getD_eq_default _ _ (by omega)
    rw [getCell, this] at h
    simp [defaultCell] at h

theorem hiddenCount_reveal_lt (g : Grid) (r c : Nat)
    (h : (getCell g r c).status = CellStatus.HIDDEN) :
    hiddenCount (setCellStatus g r c CellStatus.REVEALED) < hiddenCount g := by
  obtain ⟨hr, hc⟩ := hidden_inbounds g r c h
  unfold hiddenCount setCellStatus modifyCell
  have hsum := summap_modifyAt (fun row => row.countP (fun x : Cell => x.status == CellStatus.HIDDEN))
    (fun row => modifyAt (fun cell => { cell with status := CellStatus.REVEALED }) row c)
    [] g r hr
  have hcnt := countP_modifyAt (fun x : Cell => x.status == CellStatus.HIDDEN)
    (fun cell => { cell with status := CellStatus.REVEALED }) defaultCell (g.getD r []) c hc
  simp only [] at hsum hcnt
  rw [show ((g.getD r []).getD c defaultCell) = getCell g r c from rfl] at hcnt
  simp only [h, beq_self_eq_true, if_true,
    show (CellStatus.REVEALED == CellStatus.HIDDEN) = false from rfl,
    Bool.false_eq_true, if_false] at hcnt
  omega

theorem floodLoopF_fuel_irrel :
    ∀ (f1 : Nat), ∀ (f2 : Nat) (g : Grid) (stack : List (Int × Int)),
      floodMeasure g stack < f1 → floodMeasure g stack < f2 →
      floodLoopF f1 g stack = floodLoopF f2 g stack := by
  intro f1
  induction f1 with
  | zero => intro f2 g stack h1 _; omega
  | succ f1 ih =>
    intro f2 g stack h1 h2
    match f2, stack with
    | 0, _ => omega
    | f2 + 1, [] => rfl
    | f2 + 1, (r, c) :: rest =>
      simp only [floodLoopF]
      by_cases hguard : r < 0 ∨ (g.length : Int) ≤ r ∨ c < 0 ∨ (g.length : Int) ≤ c ∨
          (getCell g r.toNat c.toNat).status ≠ CellStatus.HIDDEN
      · rw [if_pos hguard, if_pos hguard]
        have hm : floodMeasure g rest < floodMeasure g ((r, c) :: rest) := by
          simp [floodMeasure]
        exact ih f2 g rest (by omega) (by omega)
      · rw [if_neg hguard, if_neg hguard]
        push_neg at hguard
        obtain ⟨_, _, _, _, hhid⟩ := hguard
        have hdec := hiddenCount_reveal_lt g r.toNat c.toNat hhid
        set g' := setCellStatus g r.toNat c.toNat CellStatus.REVEALED with hg'
        by_cases hz : (getCell g' r.toNat c.toNat).neighborMines = 0
        · rw [if_pos hz, if_pos hz]
          have hm : floodMeasure g' (floodPushes r c ++ rest) <
              floodMeasure g ((r, c) :: rest) := by
            simp only [floodMeasure, List.length_append, List.length_cons]
            have : (floodPushes r c).length = 9 := by simp [floodPushes, offsets9]
            omega
          exact ih f2 g' _ (by omega) (by omega)
        · rw [if_neg hz, if_neg hz]
          have hm : floodMeasure g' rest < floodMeasure g ((r, c) :: rest) := by
            simp only [floodMeasure, List.length_cons]
            omega
          exact ih f2 g' rest (by omega) (by omega)

theorem floodLoopF_eq_floodLoop (fuel : Nat) (g : Grid) (stack : List (Int × Int))
    (h : floodMeasure g stack < fuel) :
    floodLoopF fuel g stack = floodLoop g stack :=
  floodLoopF_fuel_irrel fuel _ g stack h (Nat.lt_succ_self _)

/-! ### C5: revealCell is a no-op on non-Hidden cells -/

/-- **C5.** On a square grid, if the target in-range cell is not `HIDDEN`
(`REVEALED`, `FLAGGED` or `EXPLODED`), `revealCell` returns a grid equal to
its input and `exploded = false`. -/
theorem revealCell_noop (g : Grid) (row col : Nat) (_hsq : SquareGrid g)
    (_hr : row < g.length) (_hc : col < g.length)
    (hst : (getCell g row col).status ≠ CellStatus.HIDDEN) :
    (revealCell g row col).1 = g ∧ (revealCell g row col).2 = false := by
  unfold revealCell
  rw [copyGrid_eq]
  simp [hst]

/-- Witness for C5: a flagged cell on a concrete 2×2 grid. -/
theorem revealCell_noop_witness :
    (revealCell [[⟨0,0,false,CellStatus.FLAGGED,0⟩, ⟨0,1,false,CellStatus.HIDDEN,0⟩],
                 [⟨1,0,false,CellStatus.HIDDEN,0⟩, ⟨1,1,false,CellStatus.HIDDEN,0⟩]] 0 0).1 =
      [[⟨0,0,false,CellStatus.FLAGGED,0⟩, ⟨0,1,false,CellStatus.HIDDEN,0⟩],
       [⟨1,0,false,CellStatus.HIDDEN,0⟩, ⟨1,1,false,CellStatus.HIDDEN,0⟩]] ∧
    (revealCell [[⟨0,0,false,CellStatus.FLAGGED,0⟩, ⟨0,1,false,CellStatus.HIDDEN,0⟩],
                 [⟨1,0,false,CellStatus.HIDDEN,0⟩, ⟨1,1,false,CellStatus.HIDDEN,0⟩]] 0 0).2 = false :=
  revealCell_noop _ 0 0
    (by
      intro row hrow
      simp only [List.mem_cons, List.not_mem_nil, or_false] at hrow
      rcases hrow with h | h <;> subst h <;> rfl)
    (by decide) (by decide) (by decide)

/-! ### C6: revealing a hidden mine explodes exactly that cell -/

/-- **C6.** Revealing an in-range hidden mine returns `exploded = true`,
sets exactly that cell's status to `EXPLODED`, and leaves every other cell
and the grid shape unchanged. -/
theorem revealCell_mine (g : Grid) (row col : Nat) (_hsq : SquareGrid g)
    (_hr : row < g.length) (_hc : col < g.length)
    (hhid : (getCell g row col).status = CellStatus.HIDDEN)
    (hm : (getCell g row col).isMine = true) :
    (revealCell g row col).2 = true ∧
    getCell (revealCell g row col).1 row col =
      { getCell g row col with status := CellStatus.EXPLODED } ∧
    (∀ i j, ¬(i = row ∧ j = col) →
      getCell (revealCell g row col).1 i j = getCell g i j) ∧
    (revealCell g row col).1.length = g.length ∧
    (∀ i, ((revealCell g row col).1.getD i []).length = (g.getD i []).length) := by
  obtain ⟨hr', hc'⟩ := hidden_inbounds g row col hhid
  have hres : revealCell g row col =
      (setCellStatus g row col CellStatus.EXPLODED, true) := by
    unfold revealCell
    rw [copyGrid_eq]
    rw [if_neg (by simp [hhid]), if_pos hm]
  rw [hres]
  refine ⟨rfl, ?_, ?_, ?_, ?_⟩
  · unfold setCellStatus
    rw [getCell_modifyCell]
    rw [if_pos ⟨rfl, rfl, hr', hc'⟩]
  · intro i j hij
    unfold setCellStatus
    rw [getCell_modifyCell]
    rw [if_neg (by tauto)]
  · exact length_modifyCell g row col _
  · intro i; exact getD_row_modifyCell g row col _ i

/-- Witness for C6: a hidden mine at (0,1) on a concrete 2×2 grid. -/
theorem revealCell_mine_witness :
    (revealCell [[⟨0,0,false,CellStatus.HIDDEN,1⟩, ⟨0,1,true,CellStatus.HIDDEN,0⟩],
                 [⟨1,0,false,CellStatus.HIDDEN,1⟩, ⟨1,1,false,CellStatus.HIDDEN,1⟩]] 0 1).2 = true ∧
    getCell (revealCell [[⟨0,0,false,CellStatus.HIDDEN,1⟩, ⟨0,1,true,CellStatus.HIDDEN,0⟩],
                 [⟨1,0,false,CellStatus.HIDDEN,1⟩, ⟨1,1,false,CellStatus.HIDDEN,1⟩]] 0 1).1 0 1 =
      ⟨0,1,true,CellStatus.EXPLODED,0⟩ ∧
    (∀ i j, ¬(i = 0 ∧ j = 1) →
      getCell (revealCell [[⟨0,0,false,CellStatus.HIDDEN,1⟩, ⟨0,1,true,CellStatus.HIDDEN,0⟩],
                 [⟨1,0,false,CellStatus.HIDDEN,1⟩, ⟨1,1,false,CellStatus.HIDDEN,1⟩]] 0 1).1 i j =
        getCell [[⟨0,0,false,CellStatus.HIDDEN,1⟩, ⟨0,1,true,CellStatus.HIDDEN,0⟩],
                 [⟨1,0,false,CellStatus.HIDDEN,1⟩, ⟨1,1,false,CellStatus.HIDDEN,1⟩]] i j) := by
  have h := revealCell_mine
    [[⟨0,0,false,CellStatus.HIDDEN,1⟩, ⟨0,1,true,CellStatus.HIDDEN,0⟩],
     [⟨1,0,false,CellStatus.HIDDEN,1⟩, ⟨1,1,false,CellStatus.HIDDEN,1⟩]] 0 1
    (by
      intro row hrow
      simp only [List.mem_cons, List.not_mem_nil, or_false] at hrow
      rcases hrow with hx | hx <;> subst hx <;> rfl)
    (by decide) (by decide) (by decide) (by decide)
  exact ⟨h.1, h.2.1, h.2.2.1⟩

theorem chebDist_le_one_iff (r c sr sc : Nat) :
    chebDist r c sr sc ≤ 1 ↔ isSafeZone r c sr sc = true := by
  simp only [chebDist, isSafeZone, max_le_iff, Bool.and_eq_true, decide_eq_true_eq]

theorem getD_range_map {β : Type} (f : Nat → β) (n i : Nat) (d : β) :
    (((List.range n).map f).getD i d) = if i < n then f i else d := by
  by_cases h : i < n
  · rw [if_pos h]
    rw [List.getD_eq_getElem?_getD]
    rw [List.getElem?_map]
    rw [List.getElem?_range h]
    rfl
  · rw [if_neg h]
    apply List.getD_eq_default
    simpa using Nat.le_of_not_lt h

theorem getCell_createEmptyGrid (size r c : Nat) (hr : r < size) (hc : c < size) :
    getCell (createEmptyGrid size) r c = ⟨r, c, false, CellStatus.HIDDEN, 0⟩ := by
  unfold getCell createEmptyGrid
  rw [getD_range_map, if_pos hr, getD_range_map, if_pos hc]

theorem shape_createEmptyGrid (size : Nat) : GridShape (createEmptyGrid size) size := by
  constructor
  · simp [createEmptyGrid]
  · intro i hi
    unfold createEmptyGrid
    rw [getD_range_map, if_pos hi]
    simp

theorem mineCountRows_createEmptyGrid (size : Nat) :
    mineCountRows (createEmptyGrid size) = 0 := by
  unfold mineCountRows createEmptyGrid
  apply List.sum_eq_zero
  intro x hx
  simp only [List.map_map, List.mem_map, List.mem_range] at hx
  obtain ⟨r, _, hr⟩ := hx
  rw [← hr]
  simp [List.countP_eq_zero]

theorem shape_modifyCell (g : Grid) (size r c : Nat) (f : Cell → Cell)
    (h : GridShape g size) : GridShape (modifyCell g r c f) size := by
  refine ⟨?_, ?_⟩
  · rw [length_modifyCell]; exact h.1
  · intro i hi
    rw [getD_row_modifyCell]
    exact h.2 i hi

theorem shape_setCellMine (g : Grid) (size r c : Nat) (h : GridShape g size) :
    GridShape (setCellMine g r c) size :=
  shape_modifyCell g size r c _ h

/-- Out-of-range reads on a well-shaped grid give the placeholder. -/
theorem getCell_out_of_range (g : Grid) (size r c : Nat) (hsh : GridShape g size)
    (h : ¬(r < size ∧ c < size)) : getCell g r c = defaultCell := by
  unfold getCell
  by_cases hr : r < size
  · have hc : ¬ c < size := fun hc => h ⟨hr, hc⟩
    have hrow : (g.getD r []).length = size := hsh.2 r hr
    exact List.getD_eq_default _ _ (by omega)
  · have hnil : g.getD r [] = [] :=
      List.getD_eq_default _ _ (by rw [hsh.1]; omega)
    rw [hnil]
    rfl

theorem mineCountRows_setCellMine (g : Grid) (r c : Nat)
    (hr : r < g.length) (hc : c < (g.getD r []).length)
    (hm : (getCell g r c).isMine = false) :
    mineCountRows (setCellMine g r c) = mineCountRows g + 1 := by
  unfold mineCountRows setCellMine modifyCell
  have hsum := summap_modifyAt (fun row => row.countP (fun cl : Cell => cl.isMine))
    (fun row => modifyAt (fun cell => { cell with isMine := true }) row c)
    [] g r hr
  have hcnt := countP_modifyAt (fun cl : Cell => cl.isMine)
    (fun cell => { cell with isMine := true }) defaultCell (g.getD r []) c hc
  simp only [] at hsum hcnt
  rw [show ((g.getD r []).getD c defaultCell) = getCell g r c from rfl] at hcnt
  simp only [hm, Bool.false_eq_true, if_false, if_true] at hcnt
  omega

theorem getCell_setCellMine (g : Grid) (r c i j : Nat) :
    getCell (setCellMine g r c) i j =
      if r = i ∧ c = j ∧ i < g.length ∧ j < (g.getD i []).length then
        { getCell g i j with isMine := true }
      else getCell g i j :=
  getCell_modifyCell g r c _ i j

/-- Loop invariant for `placeMinesLoop`: a successful run places exactly the
missing `mineCount - placed` mines, never inside the safe zone, never out of
range, and never removes a mine. -/
theorem placeMinesLoop_invariant (k sr sc size : Nat) :
    ∀ (picks : List (Nat × Nat)) (g : Grid) (placed : Nat) (gout : Grid),
      GridShape g size →
      (∀ p ∈ picks, p.1 < size ∧ p.2 < size) →
      placed ≤ k →
      placeMinesLoop k sr sc picks g placed = some gout →
      GridShape gout size ∧
      mineCountRows gout + placed = mineCountRows g + k ∧
      (∀ r c, (getCell gout r c).isMine = true →
        (getCell g r c).isMine = true ∨
          (isSafeZone r c sr sc = false ∧ r < size ∧ c < size)) := by
  intro picks
  induction picks with
  | nil =>
    intro g placed gout hshape _ hle hrun
    rw [placeMinesLoop] at hrun
    by_cases hstop : k ≤ placed
    · rw [if_pos hstop] at hrun
      obtain rfl : g = gout := by simpa using hrun
      have : placed = k := Nat.le_antisymm hle hstop
      subst this
      exact ⟨hshape, rfl, fun r c hm => Or.inl hm⟩
    · rw [if_neg hstop] at hrun
      cases hrun
  | cons p rest ih =>
    intro g placed gout hshape hpicks hle hrun
    obtain ⟨r, c⟩ := p
    rw [placeMinesLoop] at hrun
    by_cases hstop : k ≤ placed
    · rw [if_pos hstop] at hrun
      obtain rfl : g = gout := by simpa using hrun
      have : placed = k := Nat.le_antisymm hle hstop
      subst this
      exact ⟨hshape, rfl, fun r c hm => Or.inl hm⟩
    · rw [if_neg hstop] at hrun
      have hrc : r < size ∧ c < size := hpicks (r, c) (List.mem_cons_self _ _)
      have hrest : ∀ p ∈ rest, p.1 < size ∧ p.2 < size :=
        fun q hq => hpicks q (List.mem_cons_of_mem _ hq)
      by_cases hplace : (getCell g r c).isMine = false ∧ isSafeZone r c sr sc = false
      · rw [if_pos hplace] at hrun
        have hshape' := shape_setCellMine g size r c hshape
        have hrec := ih (setCellMine g r c) (placed + 1) gout hshape' hrest
          (by omega) hrun
        have hcount : mineCountRows (setCellMine g r c) = mineCountRows g + 1 := by
          apply mineCountRows_setCellMine g r c
          · rw [hshape.1]; exact hrc.1
          · rw [hshape.2 r hrc.1]; exact hrc.2
          · exact hplace.1
        refine ⟨hrec.1, by omega, ?_⟩
        intro r' c' hm
        rcases hrec.2.2 r' c' hm with hm' | hnew
        · rw [getCell_setCellMine] at hm'
          by_cases heq : r = r' ∧ c = c' ∧ r' < g.length ∧ c' < (g.getD r' []).length
          · right
            refine ⟨?_, ?_, ?_⟩
            · rw [← heq.1, ← heq.2.1]; exact hplace.2
            · rw [← heq.1]; exact hrc.1
            · rw [← heq.2.1]; exact hrc.2
          · rw [if_neg heq] at hm'
            exact Or.inl hm'
        · exact Or.inr hnew
      · rw [if_neg hplace] at hrun
        exact ih g placed gout hshape hrest hle hrun

theorem shape_computeNumbers (g : Grid) (size : Nat) (h : GridShape g size) :
    GridShape (computeNumbers g) size := by
  constructor
  · simp [computeNumbers, h.1]
  · intro i hi
    unfold computeNumbers
    rw [getD_range_map, h.1, if_pos hi]
    simp

theorem getCell_computeNumbers (g : Grid) (r c : Nat)
    (hr : r < g.length) (hc : c < g.length) :
    getCell (computeNumbers g) r c =
      (if (getCell g r c).isMine then getCell g r c
       else { getCell g r c with neighborMines := countAdjMines g g.length r c }) := by
  unfold getCell computeNumbers
  rw [getD_range_map, if_pos hr, getD_range_map, if_pos hc]
  rfl

theorem isMine_computeNumbers (g : Grid) (size r c : Nat) (hsh : GridShape g size) :
    (getCell (computeNumbers g) r c).isMine = (getCell g r c).isMine := by
  by_cases hin : r < size ∧ c < size
  · rw [getCell_computeNumbers g r c (by rw [hsh.1]; exact hin.1)
      (by rw [hsh.1]; exact hin.2)]
    by_cases hm : (getCell g r c).isMine
    · rw [if_pos hm]
    · rw [if_neg hm]
  · rw [getCell_out_of_range (computeNumbers g) size r c (shape_computeNumbers g size hsh) hin,
      getCell_out_of_range g size r c hsh hin]

theorem countP_range_eq {α : Type} (p : α → Bool) (d : α) :
    ∀ (row : List α) (q : Nat → Bool),
      (∀ i, i < row.length → q i = p (row.getD i d)) →
      List.countP q (List.range row.length) = row.countP p := by
  intro row
  induction row with
  | nil => intro q _; simp
  | cons a as ih =>
    intro q hq
    have h0 : q 0 = p a := by simpa using hq 0 (by simp)
    rw [List.length_cons, List.range_succ_eq_map, List.countP_cons, List.countP_map]
    rw [List.countP_cons]
    have : List.countP (q ∘ Nat.succ) (List.range as.length) = as.countP p := by
      apply ih
      intro i hi
      simpa using hq (i + 1) (by simpa using Nat.succ_lt_succ hi)
    rw [this, h0]

theorem mineCountRows_computeNumbers (g : Grid) (size : Nat) (hsh : GridShape g size) :
    mineCountRows (computeNumbers g) = mineCountRows g := by
  unfold mineCountRows computeNumbers
  rw [List.map_map]
  have hR : g.map (fun row => row.countP (fun cl : Cell => cl.isMine)) =
      (List.range g.length).map
        (fun r => (g.getD r []).countP (fun cl : Cell => cl.isMine)) := by
    apply List.ext_getElem
    · simp
    · intro i h1 h2
      simp only [List.getElem_map, List.getElem_range]
      congr 1
      rw [List.getD_eq_getElem?_getD]
      rw [List.getElem?_eq_getElem (by simpa using h1)]
      rfl
  rw [hR]
  congr 1
  apply List.map_congr_left
  intro r hr
  simp only [List.mem_range] at hr
  simp only [Function.comp]
  rw [List.countP_map]
  have hlen : (g.getD r []).length = g.length := by
    rw [hsh.1]
    exact hsh.2 r (by rw [← hsh.1]; exact hr)
  rw [show List.range g.length = List.range (g.getD r []).length by rw [hlen]]
  apply countP_range_eq (fun cl : Cell => cl.isMine) defaultCell
  intro i hi
  have hrow : (g.getD r []).getD i defaultCell = getCell g r i := rfl
  rw [hrow]
  simp only [Function.comp]
  by_cases hm : (getCell g r i).isMine
  · rw [if_pos hm]
  · rw [if_neg hm]

theorem countAdjMines_eq_count8 (g : Grid) (size r c : Nat)
    (hm : (getCell g r c).isMine = false) :
    countAdjMines g size r c = neighborMineCount8 g size r c := by
  have hcenter : adjMineB g size r c (0, 0) = false := by
    simp [adjMineB, hm]
  unfold countAdjMines neighborMineCount8 offsets9 offsets8
  rw [← List.countP_eq_length_filter, ← List.countP_eq_length_filter]
  simp only [List.countP_cons, List.countP_nil]
  rw [hcenter]
  simp

theorem neighborMines_computeNumbers (g : Grid) (size r c : Nat) (hsh : GridShape g size)
    (hr : r < size) (hc : c < size) (hm : (getCell g r c).isMine = false) :
    (getCell (computeNumbers g) r c).neighborMines = countAdjMines g size r c := by
  rw [getCell_computeNumbers g r c (by rw [hsh.1]; exact hr) (by rw [hsh.1]; exact hc)]
  rw [if_neg (by simp [hm])]
  show countAdjMines g g.length r c = countAdjMines g size r c
  rw [hsh.1]

theorem adjMineB_congr (g1 g2 : Grid) (size r c : Nat)
    (h : ∀ i j, (getCell g1 i j).isMine = (getCell g2 i j).isMine) :
    adjMineB g1 size r c = adjMineB g2 size r c :=
  funext fun d => by simp only [adjMineB, h]

/-- **C1.** Starting from an empty grid of any size, for any draw stream: if
`placeMines` terminates (returns `some`), the result has exactly `k` mines,
none within Chebyshev distance 1 of the safe cell, and every non-mine cell's
`neighborMines` equals the number of mines among its in-range 8-neighborhood. -/
theorem placeMines_spec (size k sr sc : Nat) (picks : List (Nat × Nat)) (g' : Grid)
    (hpicks : ∀ p ∈ picks, p.1 < size ∧ p.2 < size)
    (h : placeMines (createEmptyGrid size) k sr sc picks = some g') :
    GridShape g' size ∧
    mineCountRows g' = k ∧
    (∀ r c, r < size → c < size → chebDist r c sr sc ≤ 1 →
      (getCell g' r c).isMine = false) ∧
    (∀ r c, r < size → c < size → (getCell g' r c).isMine = false →
      (getCell g' r c).neighborMines = neighborMineCount8 g' size r c) := by
  unfold placeMines at h
  rw [copyGrid_eq] at h
  cases hloop : placeMinesLoop k sr sc picks (createEmptyGrid size) 0 with
  | none => rw [hloop] at h; cases h
  | some gl =>
    rw [hloop] at h
    obtain rfl : computeNumbers gl = g' := by simpa using h
    have hinv := placeMinesLoop_invariant k sr sc size picks (createEmptyGrid size) 0 gl
      (shape_createEmptyGrid size) hpicks (Nat.zero_le k) hloop
    obtain ⟨hshl, hcount, hmines⟩ := hinv
    have hminesEmpty := mineCountRows_createEmptyGrid size
    have hk : mineCountRows gl = k := by omega
    have hisM : ∀ i j, (getCell (computeNumbers gl) i j).isMine = (getCell gl i j).isMine :=
      fun i j => isMine_computeNumbers gl size i j hshl
    refine ⟨shape_computeNumbers gl size hshl, ?_, ?_, ?_⟩
    · rw [mineCountRows_computeNumbers gl size hshl]; exact hk
    · intro r c hr hc hcheb
      rw [hisM r c]
      by_contra hmm
      have hmm' : (getCell gl r c).isMine = true := by simpa using hmm
      rcases hmines r c hmm' with hempty | hsafe
      · rw [getCell_createEmptyGrid size r c hr hc] at hempty; cases hempty
      · rw [chebDist_le_one_iff] at hcheb
        rw [hsafe.1] at hcheb; cases hcheb
    · intro r c hr hc hmf
      rw [hisM r c] at hmf
      have h1 := neighborMines_computeNumbers gl size r c hshl hr hc hmf
      rw [h1, countAdjMines_eq_count8 gl size r c hmf]
      unfold neighborMineCount8
      rw [adjMineB_congr (computeNumbers gl) gl size r c hisM]

/-- Witness for C1: one mine drawn at (2,2) on a 3×3 grid with safe cell
(0,0) gives exactly one mine. -/
theorem placeMines_spec_witness :
    mineCountRows ((placeMines (createEmptyGrid 3) 1 0 0 [(2, 2)]).getD []) = 1 :=
  (placeMines_spec 3 1 0 0 [(2, 2)]
    ((placeMines (createEmptyGrid 3) 1 0 0 [(2, 2)]).getD [])
    (by decide) (by decide)).2.1

/-! ### C10: the grid operations are pure in their grid argument -/

/-- **C10.** `placeMines`, `revealCell` and `toggleFlag` each start from the
defensive per-cell copy `grid.map(row => row.map(cell => ({...cell})))` and
mutate only that copy.  The copy rebuilds every cell with all fields
(status, isMine, neighborMines) unchanged — `copyGrid g = g` — so each
operation is a pure function of the input value and the argument grid's
cells are exactly as before the call. -/
theorem gridOps_pure (g : Grid) (k sr sc row col : Nat) (picks : List (Nat × Nat)) :
    copyGrid g = g ∧
    placeMines g k sr sc picks = placeMines (copyGrid g) k sr sc picks ∧
    revealCell g row col = revealCell (copyGrid g) row col ∧
    toggleFlag g row col = toggleFlag (copyGrid g) row col := by
  rw [copyGrid_eq]
  exact ⟨rfl, rfl, rfl, rfl⟩

/-- **C9.** Level `n ≥ 1` gets grid size `min(5 + (n-1)*5, 30)` and mine
count `floor(size² · min(0.10 + 0.01n, 0.20))`; in closed form this is the
integer division `size² · min(10+n, 20) / 100`; in particular level 1 gives
size 5 with `floor(25·0.11) = 2` mines and level 6 gives size 30 with
`floor(900·0.16) = 144` mines. -/
theorem initLevel_spec (n : Nat) (_hn : 1 ≤ n) :
    initLevelSize n = min (5 + (n - 1) * 5) 30 ∧
    initLevelMines n =
      ((initLevelSize n * initLevelSize n * min (10 + n) 20 : Nat) : Int) / 100 ∧
    initLevelSize 1 = 5 ∧ initLevelMines 1 = Int.floor ((25 : ℚ) * (11/100)) ∧
    initLevelMines 1 = 2 ∧
    initLevelSize 6 = 30 ∧ initLevelMines 6 = Int.floor ((900 : ℚ) * (16/100)) ∧
    initLevelMines 6 = 144 := by
  refine ⟨rfl, ?_, rfl, by norm_num [initLevelMines, initLevelSize],
    by norm_num [initLevelMines, initLevelSize], rfl,
    by norm_num [initLevelMines, initLevelSize],
    by norm_num [initLevelMines, initLevelSize]⟩
  unfold initLevelMines
  have hdens : min ((10 : ℚ)/100 + n * ((1 : ℚ)/100)) ((20 : ℚ)/100) =
      ((min (10 + n) 20 : Nat) : ℚ) / 100 := by
    have h1 : (10 : ℚ)/100 + n * ((1 : ℚ)/100) = ((10 + n : Nat) : ℚ) / 100 := by
      push_cast
      ring
    have h2 : (20 : ℚ)/100 = ((20 : Nat) : ℚ) / 100 := by norm_num
    rw [h1, h2, min_div_div_right (by norm_num : (0:ℚ) ≤ 100)]
    rw [Nat.cast_min]
  rw [hdens]
  have hmul : (initLevelSize n * initLevelSize n : ℚ) * (((min (10 + n) 20 : Nat) : ℚ) / 100) =
      ((initLevelSize n * initLevelSize n * min (10 + n) 20 : Nat) : ℚ) / 100 := by
    push_cast
    ring
  rw [hmul]
  have := Rat.floor_intCast_div_natCast
    ((initLevelSize n * initLevelSize n * min (10 + n) 20 : Nat) : Int) 100
  rw [show (((initLevelSize n * initLevelSize n * min (10 + n) 20 : Nat) : Int) : ℚ) =
      ((initLevelSize n * initLevelSize n * min (10 + n) 20 : Nat) : ℚ) by push_cast; ring] at this
  rw [show ((100 : Nat) : ℚ) = (100 : ℚ) by norm_num] at this
  rw [this]
  norm_num

/-- Witness for C9 at level 2: size 10, 12 mines. -/
theorem initLevel_spec_witness :
    initLevelSize 2 = min (5 + (2 - 1) * 5) 30 ∧
    initLevelMines 2 = ((initLevelSize 2 * initLevelSize 2 * min (10 + 2) 20 : Nat) : Int) / 100 :=
  ⟨(initLevel_spec 2 (by decide)).1, (initLevel_spec 2 (by decide)).2.1⟩

theorem tickIter_succ_shift (n : Nat) (s : PState) :
    tickIter n (physTick s) = tickIter (n + 1) s := rfl

theorem landingLoop_first_crossing :
    ∀ (fuel m : Nat) (s : PState), 1 ≤ m → m ≤ fuel →
      (tickIter m s).z ≤ 0 →
      (∀ j, 1 ≤ j → j < m → 0 < (tickIter j s).z) →
      landingLoop fuel s = tickIter m s := by
  intro fuel
  induction fuel with
  | zero => intro m s h1 h2 _ _; omega
  | succ f ih =>
    intro m s h1 h2 hz hpos
    show (let s' := physTick s; if s'.z ≤ 0 then s' else landingLoop f s') = tickIter m s
    simp only []
    by_cases hz1 : (physTick s).z ≤ 0
    · rw [if_pos hz1]
      have hm1 : m = 1 := by
        by_contra hm
        have h2' : 0 < (tickIter 1 s).z := hpos 1 (le_refl 1) (by omega)
        rw [show tickIter 1 s = physTick s from rfl] at h2'
        linarith
      subst hm1
      rfl
    · rw [if_neg hz1]
      have hm1 : 1 < m := by
        by_contra hm
        have : m = 1 := by omega
        subst this
        rw [show tickIter 1 s = physTick s from rfl] at hz
        exact hz1 hz
      have := ih (m - 1) (physTick s) (by omega) (by omega)
        (by rw [tickIter_succ_shift]; rw [show m - 1 + 1 = m by omega]; exact hz)
        (by
          intro j hj1 hj2
          rw [tickIter_succ_shift]
          exact hpos (j + 1) (by omega) (by omega))
      rw [this, tickIter_succ_shift, show m - 1 + 1 = m by omega]

theorem landingLoop_no_crossing :
    ∀ (fuel : Nat) (s : PState),
      (∀ j, 1 ≤ j → j ≤ fuel → 0 < (tickIter j s).z) →
      landingLoop fuel s = tickIter fuel s := by
  intro fuel
  induction fuel with
  | zero => intro s _; rfl
  | succ f ih =>
    intro s hpos
    show (let s' := physTick s; if s'.z ≤ 0 then s' else landingLoop f s') = tickIter (f + 1) s
    simp only []
    have h1 : 0 < (physTick s).z := by
      have := hpos 1 (le_refl 1) (by omega)
      rwa [show tickIter 1 s = physTick s from rfl] at this
    rw [if_neg (not_le.mpr h1)]
    rw [ih (physTick s) (fun j hj1 hj2 => by
      rw [tickIter_succ_shift]
      exact hpos (j + 1) (by omega) (by omega))]
    rw [tickIter_succ_shift]

/-- **C8.** `calculateLandingPos` iterates the tick update
(`position += velocity; z += vz; vz -= 0.5; velocity *= 0.995`), returning
the ground-plane position of the first tick at which `z ≤ 0` after the
update, and performs at most 800 iterations, returning the 800-tick
position when `z` never crosses 0. -/
theorem calculateLandingPos_spec (p v : ℚ × ℚ) (vz : ℚ) :
    (∀ m, 1 ≤ m → m ≤ 800 →
      (tickIter m ⟨p.1, p.2, 0, v.1, v.2, vz⟩).z ≤ 0 →
      (∀ j, 1 ≤ j → j < m → 0 < (tickIter j ⟨p.1, p.2, 0, v.1, v.2, vz⟩).z) →
      calculateLandingPos p v vz =
        ((tickIter m ⟨p.1, p.2, 0, v.1, v.2, vz⟩).x,
         (tickIter m ⟨p.1, p.2, 0, v.1, v.2, vz⟩).y)) ∧
    ((∀ j, 1 ≤ j → j ≤ 800 → 0 < (tickIter j ⟨p.1, p.2, 0, v.1, v.2, vz⟩).z) →
      calculateLandingPos p v vz =
        ((tickIter 800 ⟨p.1, p.2, 0, v.1, v.2, vz⟩).x,
         (tickIter 800 ⟨p.1, p.2, 0, v.1, v.2, vz⟩).y)) := by
  constructor
  · intro m h1 h2 hz hpos
    unfold calculateLandingPos
    rw [landingLoop_first_crossing 800 m _ h1 h2 hz hpos]
  · intro hpos
    unfold calculateLandingPos
    rw [landingLoop_no_crossing 800 _ hpos]

/-- Witness for C8: with zero initial vertical speed the first tick already
lands (`z = -0.5 ≤ 0`), so the landing position is one velocity step from
the start. -/
theorem calculateLandingPos_spec_witness :
    calculateLandingPos (0, 0) (1, 2) 0 = (1, 2) := by
  have h := (calculateLandingPos_spec (0, 0) (1, 2) 0).1 1 (le_refl 1) (by norm_num)
    (by norm_num [tickIter, physTick]) (by intro j hj1 hj2; exact absurd hj2 (by omega))
  rw [h]
  norm_num [tickIter, physTick]

/-- **C4 (code evaluation).** A frame in which the projectile both lands
(`z` crosses ≤ 0) and is out of bounds fires the resolution callback twice,
not once; afterwards the projectile is inactive and fires no more, so its
lifecycle total is 2. -/
theorem animateTick_double_fire :
    (animateTick ⟨0, -150, 1/4, 0, 0, -1/2, true⟩ 1000).2 = 2 ∧
    (animateTick (animateTick ⟨0, -150, 1/4, 0, 0, -1/2, true⟩ 1000).1 1000).2 = 0 := by
  constructor
  · with_unfolding_all decide
  · with_unfolding_all decide

theorem solveLoop_succ (n : Nat) (mn mx t : ℚ) :
    solveLoop (n + 1) mn mx t =
      if simulateRange ((mn + mx) / 2) < t then solveLoop n ((mn + mx) / 2) mx t
      else solveLoop n mn ((mn + mx) / 2) t := rfl

theorem stepIter_add (a b : Nat) (s : SimState) :
    stepIter (a + b) s = stepIter b (stepIter a s) := by
  induction a generalizing s with
  | zero => rw [Nat.zero_add]; rfl
  | succ a ih =>
    rw [show a + 1 + b = (a + b) + 1 by omega]
    show stepIter (a + b) (simStep s) = stepIter b (stepIter a (simStep s))
    exact ih (simStep s)

theorem simStep_landed (s : SimState) (h : s.landed = true) : simStep s = s := by
  unfold simStep
  rw [if_pos h]

theorem stepIter_landed (n : Nat) (s : SimState) (h : s.landed = true) :
    stepIter n s = s := by
  induction n with
  | zero => rfl
  | succ n ih =>
    show stepIter n (simStep s) = s
    rw [simStep_landed s h]
    exact ih

theorem stepIter_d_mono (n : Nat) (s : SimState) (hv : 0 ≤ s.vH) :
    s.d ≤ (stepIter n s).d := by
  induction n generalizing s with
  | zero => exact le_refl _
  | succ n ih =>
    show s.d ≤ (stepIter n (simStep s)).d
    by_cases hl : s.landed = true
    · rw [simStep_landed s hl]
      calc s.d ≤ s.d := le_refl _
        _ ≤ (stepIter n s).d := ih s hv
    · have hstep : (simStep s).d = s.d + s.vH ∧ (simStep s).vH = s.vH * (995/1000) := by
        unfold simStep
        rw [if_neg hl]
        by_cases hh : s.h + s.vZ ≤ 0
        · rw [if_pos hh]; exact ⟨rfl, rfl⟩
        · rw [if_neg hh]; exact ⟨rfl, rfl⟩
      have hv' : 0 ≤ (simStep s).vH := by
        rw [hstep.2]
        positivity
      calc s.d ≤ s.d + s.vH := by linarith
        _ = (simStep s).d := hstep.1.symm
        _ ≤ (stepIter n (simStep s)).d := ih (simStep s) hv'

theorem simLoop_eq_stepIter (n : Nat) :
    ∀ (vH vZ h d : ℚ), simLoop n vH vZ h d = (stepIter n ⟨vH, vZ, h, d, false⟩).d := by
  induction n with
  | zero => intro vH vZ h d; rfl
  | succ n ih =>
    intro vH vZ h d
    show (let d' := d + vH
          let h' := h + vZ
          let vZ' := vZ - 1/2
          let vH' := vH * (995/1000)
          if h' ≤ 0 then d' else simLoop n vH' vZ' h' d') =
      (stepIter n (simStep ⟨vH, vZ, h, d, false⟩)).d
    simp only []
    by_cases hh : h + vZ ≤ 0
    · rw [if_pos hh]
      have hstep : simStep ⟨vH, vZ, h, d, false⟩ =
          ⟨vH * (995/1000), vZ - 1/2, h + vZ, d + vH, true⟩ := by
        unfold simStep
        rw [if_neg (by simp), if_pos hh]
      rw [hstep, stepIter_landed n _ rfl]
    · rw [if_neg hh]
      have hstep : simStep ⟨vH, vZ, h, d, false⟩ =
          ⟨vH * (995/1000), vZ - 1/2, h + vZ, d + vH, false⟩ := by
        unfold simStep
        rw [if_neg (by simp), if_neg hh]
      rw [hstep, ih]

theorem simulateRange_eq_stepIter (pull : ℚ) :
    simulateRange pull = (stepIter 800 (simInit pull)).d :=
  simLoop_eq_stepIter 800 _ _ _ _

theorem simulateRange_zero : simulateRange 0 = 0 := by
  unfold simulateRange
  norm_num
  show (if (0 : ℚ) + 0 ≤ 0 then (0 : ℚ) + 0 else simLoop 799 (0 * (995/1000)) (0 - 1/2) (0 + 0) (0 + 0)) = 0
  norm_num

/-- Bracket invariant of the bisection: if the target is strictly above the
range at `mn` and at most the range at `mx`, that stays true and the bracket
halves each iteration. -/
theorem solveLoop_bracket (n : Nat) :
    ∀ (mn mx t : ℚ), simulateRange mn < t → t ≤ simulateRange mx →
      simulateRange (solveLoop n mn mx t).1 < t ∧
      t ≤ simulateRange (solveLoop n mn mx t).2 ∧
      (solveLoop n mn mx t).2 - (solveLoop n mn mx t).1 = (mx - mn) / 2 ^ n := by
  induction n with
  | zero =>
    intro mn mx t h1 h2
    exact ⟨h1, h2, by norm_num [solveLoop]⟩
  | succ n ih =>
    intro mn mx t h1 h2
    rw [solveLoop_succ]
    by_cases hmid : simulateRange ((mn + mx) / 2) < t
    · rw [if_pos hmid]
      have := ih ((mn + mx) / 2) mx t hmid h2
      refine ⟨this.1, this.2.1, ?_⟩
      rw [this.2.2]
      rw [show mx - (mn + mx) / 2 = (mx - mn) / 2 by ring]
      rw [div_div, pow_succ]
      ring_nf
    · rw [if_neg hmid]
      have := ih mn ((mn + mx) / 2) t h1 (not_lt.mp hmid)
      refine ⟨this.1, this.2.1, ?_⟩
      rw [this.2.2]
      rw [show (mn + mx) / 2 - mn = (mx - mn) / 2 by ring]
      rw [div_div, pow_succ]
      ring_nf

/-- **C7 (amended).** For every target `d` with `0 < d ≤ simulateRange 3000`
(so in particular for all `d ∈ (0, 3000)`), the 30-iteration search keeps
the invariant `simulateRange mn < d ≤ simulateRange mx`, narrows the bracket
to width `3000 / 2³⁰`, and returns the bracket midpoint.  (The composed
error `|simulateRange (solveForPull d) − d|` is *not* below a small ε in
general: `simulateRange` jumps at pulls where the flight gains a tick, see
the counterexample.) -/
theorem solveForPull_bracket_spec (d : ℚ) (h1 : 0 < d)
    (h2 : d ≤ simulateRange 3000) :
    simulateRange (solveLoop 30 0 3000 d).1 < d ∧
    d ≤ simulateRange (solveLoop 30 0 3000 d).2 ∧
    (solveLoop 30 0 3000 d).2 - (solveLoop 30 0 3000 d).1 = 3000 / 2 ^ 30 ∧
    solveForPull d = ((solveLoop 30 0 3000 d).1 + (solveLoop 30 0 3000 d).2) / 2 := by
  have h0 : simulateRange 0 < d := by rw [simulateRange_zero]; exact h1
  have hb := solveLoop_bracket 30 0 3000 d h0 h2
  exact ⟨hb.1, hb.2.1, by rw [hb.2.2]; norm_num, rfl⟩

/-- Witness for the amended C7 at target 100. -/
theorem solveForPull_bracket_spec_witness :
    simulateRange (solveLoop 30 0 3000 100).1 < 100 ∧
    (100 : ℚ) ≤ simulateRange (solveLoop 30 0 3000 100).2 ∧
    (solveLoop 30 0 3000 100).2 - (solveLoop 30 0 3000 100).1 = 3000 / 2 ^ 30 ∧
    solveForPull 100 = ((solveLoop 30 0 3000 100).1 + (solveLoop 30 0 3000 100).2) / 2 := by
  have h2 : (100 : ℚ) ≤ simulateRange 3000 := by
    rw [simulateRange_eq_stepIter, show (800 : Nat) = 1 + 799 from rfl, stepIter_add]
    have hv : 0 ≤ (stepIter 1 (simInit 3000)).vH := by with_unfolding_all decide
    have hd : (100 : ℚ) ≤ (stepIter 1 (simInit 3000)).d := by with_unfolding_all decide
    exact le_trans hd (stepIter_d_mono 799 _ hv)
  exact solveForPull_bracket_spec 100 (by norm_num) h2

/-- **C7 (counterexample).** At target distance `d = 23.07` (inside
`(0, 3000)`, in the jump of `simulateRange` at pull 15 where the flight
gains an 11th tick), the pull returned by the 30-iteration search misses by
more than 1: the composed error is not below a small tolerance. -/
theorem solveForPull_error_cex :
    (0 : ℚ) < (2307 : ℚ) / 100 ∧ (2307 : ℚ) / 100 < 3000 ∧
    1 < |simulateRange (solveForPull ((2307 : ℚ) / 100)) - (2307 : ℚ) / 100| := by
  refine ⟨by norm_num, by norm_num, ?_⟩
  have c1 : ¬ simulateRange (1500 : ℚ) < (2307 : ℚ) / 100 := by
    rw [simulateRange_eq_stepIter, show (800 : Nat) = 16 + 784 from rfl, stepIter_add]
    have hv : 0 ≤ (stepIter 16 (simInit (1500 : ℚ))).vH := by with_unfolding_all decide
    have hd : (2307 : ℚ) / 100 ≤ (stepIter 16 (simInit (1500 : ℚ))).d := by
      with_unfolding_all decide
    exact not_lt.mpr (le_trans hd (stepIter_d_mono 784 _ hv))
  have c2 : ¬ simulateRange (750 : ℚ) < (2307 : ℚ) / 100 := by
    rw [simulateRange_eq_stepIter, show (800 : Nat) = 16 + 784 from rfl, stepIter_add]
    have hv : 0 ≤ (stepIter 16 (simInit (750 : ℚ))).vH := by with_unfolding_all decide
    have hd : (2307 : ℚ) / 100 ≤ (stepIter 16 (simInit (750 : ℚ))).d := by
      with_unfolding_all decide
    exact not_lt.mpr (le_trans hd (stepIter_d_mono 784 _ hv))
  have c3 : ¬ simulateRange (375 : ℚ) < (2307 : ℚ) / 100 := by
    rw [simulateRange_eq_stepIter, show (800 : Nat) = 16 + 784 from rfl, stepIter_add]
    have hv : 0 ≤ (stepIter 16 (simInit (375 : ℚ))).vH := by with_unfolding_all decide
    have hd : (2307 : ℚ) / 100 ≤ (stepIter 16 (simInit (375 : ℚ))).d := by
      with_unfolding_all decide
    exact not_lt.mpr (le_trans hd (stepIter_d_mono 784 _ hv))
  have c4 : ¬ simulateRange ((375 : ℚ) / 2) < (2307 : ℚ) / 100 := by
    rw [simulateRange_eq_stepIter, show (800 : Nat) = 16 + 784 from rfl, stepIter_add]
    have hv : 0 ≤ (stepIter 16 (simInit ((375 : ℚ) / 2))).vH := by with_unfolding_all decide
    have hd : (2307 : ℚ) / 100 ≤ (stepIter 16 (simInit ((375 : ℚ) / 2))).d := by
      with_unfolding_all decide
    exact not_lt.mpr (le_trans hd (stepIter_d_mono 784 _ hv))
  have c5 : ¬ simulateRange ((375 : ℚ) / 4) < (2307 : ℚ) / 100 := by
    rw [simulateRange_eq_stepIter, show (800 : Nat) = 16 + 784 from rfl, stepIter_add]
    have hv : 0 ≤ (stepIter 16 (simInit ((375 : ℚ) / 4))).vH := by with_unfolding_all decide
    have hd : (2307 : ℚ) / 100 ≤ (stepIter 16 (simInit ((375 : ℚ) / 4))).d := by
      with_unfolding_all decide
    exact not_lt.mpr (le_trans hd (stepIter_d_mono 784 _ hv))
  have c6 : ¬ simulateRange ((375 : ℚ) / 8) < (2307 : ℚ) / 100 := by
    rw [simulateRange_eq_stepIter, show (800 : Nat) = 16 + 784 from rfl, stepIter_add]
    have hv : 0 ≤ (stepIter 16 (simInit ((375 : ℚ) / 8))).vH := by with_unfolding_all decide
    have hd : (2307 : ℚ) / 100 ≤ (stepIter 16 (simInit ((375 : ℚ) / 8))).d := by
      with_unfolding_all decide
    exact not_lt.mpr (le_trans hd (stepIter_d_mono 784 _ hv))
  have c7 : ¬ simulateRange ((375 : ℚ) / 16) < (2307 : ℚ) / 100 := by
    rw [simulateRange_eq_stepIter, show (800 : Nat) = 16 + 784 from rfl, stepIter_add]
    have hv : 0 ≤ (stepIter 16 (simInit ((375 : ℚ) / 16))).vH := by with_unfolding_all decide
    have hd : (2307 : ℚ) / 100 ≤ (stepIter 16 (simInit ((375 : ℚ) / 16))).d := by
      with_unfolding_all decide
    exact not_lt.mpr (le_trans hd (stepIter_d_mono 784 _ hv))
  have c8 : simulateRange ((375 : ℚ) / 32) < (2307 : ℚ) / 100 := by
    rw [simulateRange_eq_stepIter, show (800 : Nat) = 16 + 784 from rfl, stepIter_add,
      stepIter_landed 784 _ (by with_unfolding_all decide)]
    with_unfolding_all decide
  have c9 : ¬ simulateRange ((1125 : ℚ) / 64) < (2307 : ℚ) / 100 := by
    rw [simulateRange_eq_stepIter, show (800 : Nat) = 16 + 784 from rfl, stepIter_add]
    have hv : 0 ≤ (stepIter 16 (simInit ((1125 : ℚ) / 64))).vH := by with_unfolding_all decide
    have hd : (2307 : ℚ) / 100 ≤ (stepIter 16 (simInit ((1125 : ℚ) / 64))).d := by
      with_unfolding_all decide
    exact not_lt.mpr (le_trans hd (stepIter_d_mono 784 _ hv))
  have c10 : simulateRange ((1875 : ℚ) / 128) < (2307 : ℚ) / 100 := by
    rw [simulateRange_eq_stepIter, show (800 : Nat) = 16 + 784 from rfl, stepIter_add,
      stepIter_landed 784 _ (by with_unfolding_all decide)]
    with_unfolding_all decide
  have c11 : ¬ simulateRange ((4125 : ℚ) / 256) < (2307 : ℚ) / 100 := by
    rw [simulateRange_eq_stepIter, show (800 : Nat) = 16 + 784 from rfl, stepIter_add]
    have hv : 0 ≤ (stepIter 16 (simInit ((4125 : ℚ) / 256))).vH := by with_unfolding_all decide
    have hd : (2307 : ℚ) / 100 ≤ (stepIter 16 (simInit ((4125 : ℚ) / 256))).d := by
      with_unfolding_all decide
    exact not_lt.mpr (le_trans hd (stepIter_d_mono 784 _ hv))
  have c12 : ¬ simulateRange ((7875 : ℚ) / 512) < (2307 : ℚ) / 100 := by
    rw [simulateRange_eq_stepIter, show (800 : Nat) = 16 + 784 from rfl, stepIter_add]
    have hv : 0 ≤ (stepIter 16 (simInit ((7875 : ℚ) / 512))).vH := by with_unfolding_all decide
    have hd : (2307 : ℚ) / 100 ≤ (stepIter 16 (simInit ((7875 : ℚ) / 512))).d := by
      with_unfolding_all decide
    exact not_lt.mpr (le_trans hd (stepIter_d_mono 784 _ hv))
  have c13 : ¬ simulateRange ((15375 : ℚ) / 1024) < (2307 : ℚ) / 100 := by
    rw [simulateRange_eq_stepIter, show (800 : Nat) = 16 + 784 from rfl, stepIter_add]
    have hv : 0 ≤ (stepIter 16 (simInit ((15375 : ℚ) / 1024))).vH := by with_unfolding_all decide
    have hd : (2307 : ℚ) / 100 ≤ (stepIter 16 (simInit ((15375 : ℚ) / 1024))).d := by
      with_unfolding_all decide
    exact not_lt.mpr (le_trans hd (stepIter_d_mono 784 _ hv))
  have c14 : simulateRange ((30375 : ℚ) / 2048) < (2307 : ℚ) / 100 := by
    rw [simulateRange_eq_stepIter, show (800 : Nat) = 16 + 784 from rfl, stepIter_add,
      stepIter_landed 784 _ (by with_unfolding_all decide)]
    with_unfolding_all decide
  have c15 : simulateRange ((61125 : ℚ) / 4096) < (2307 : ℚ) / 100 := by
    rw [simulateRange_eq_stepIter, show (800 : Nat) = 16 + 784 from rfl, stepIter_add,
      stepIter_landed 784 _ (by with_unfolding_all decide)]
    with_unfolding_all decide
  have c16 : simulateRange ((122625 : ℚ) / 8192) < (2307 : ℚ) / 100 := by
    rw [simulateRange_eq_stepIter, show (800 : Nat) = 16 + 784 from rfl, stepIter_add,
      stepIter_landed 784 _ (by with_unfolding_all decide)]
    with_unfolding_all decide
  have c17 : simulateRange ((245625 : ℚ) / 16384) < (2307 : ℚ) / 100 := by
    rw [simulateRange_eq_stepIter, show (800 : Nat) = 16 + 784 from rfl, stepIter_add,
      stepIter_landed 784 _ (by with_unfolding_all decide)]
    with_unfolding_all decide
  have c18 : ¬ simulateRange ((491625 : ℚ) / 32768) < (2307 : ℚ) / 100 := by
    rw [simulateRange_eq_stepIter, show (800 : Nat) = 16 + 784 from rfl, stepIter_add]
    have hv : 0 ≤ (stepIter 16 (simInit ((491625 : ℚ) / 32768))).vH := by with_unfolding_all decide
    have hd : (2307 : ℚ) / 100 ≤ (stepIter 16 (simInit ((491625 : ℚ) / 32768))).d := by
      with_unfolding_all decide
    exact not_lt.mpr (le_trans hd (stepIter_d_mono 784 _ hv))
  have c19 : simulateRange ((982875 : ℚ) / 65536) < (2307 : ℚ) / 100 := by
    rw [simulateRange_eq_stepIter, show (800 : Nat) = 16 + 784 from rfl, stepIter_add,
      stepIter_landed 784 _ (by with_unfolding_all decide)]
    with_unfolding_all decide
  have c20 : ¬ simulateRange ((1966125 : ℚ) / 131072) < (2307 : ℚ) / 100 := by
    rw [simulateRange_eq_stepIter, show (800 : Nat) = 16 + 784 from rfl, stepIter_add]
    have hv : 0 ≤ (stepIter 16 (simInit ((1966125 : ℚ) / 131072))).vH := by with_unfolding_all decide
    have hd : (2307 : ℚ) / 100 ≤ (stepIter 16 (simInit ((1966125 : ℚ) / 131072))).d := by
      with_unfolding_all decide
    exact not_lt.mpr (le_trans hd (stepIter_d_mono 784 _ hv))
  have c21 : simulateRange ((3931875 : ℚ) / 262144) < (2307 : ℚ) / 100 := by
    rw [simulateRange_eq_stepIter, show (800 : Nat) = 16 + 784 from rfl, stepIter_add,
      stepIter_landed 784 _ (by with_unfolding_all decide)]
    with_unfolding_all decide
  have c22 : simulateRange ((7864125 : ℚ) / 524288) < (2307 : ℚ) / 100 := by
    rw [simulateRange_eq_stepIter, show (800 : Nat) = 16 + 784 from rfl, stepIter_add,
      stepIter_landed 784 _ (by with_unfolding_all decide)]
    with_unfolding_all decide
  have c23 : simulateRange ((15728625 : ℚ) / 1048576) < (2307 : ℚ) / 100 := by
    rw [simulateRange_eq_stepIter, show (800 : Nat) = 16 + 784 from rfl, stepIter_add,
      stepIter_landed 784 _ (by with_unfolding_all decide)]
    with_unfolding_all decide
  have c24 : ¬ simulateRange ((31457625 : ℚ) / 2097152) < (2307 : ℚ) / 100 := by
    rw [simulateRange_eq_stepIter, show (800 : Nat) = 16 + 784 from rfl, stepIter_add]
    have hv : 0 ≤ (stepIter 16 (simInit ((31457625 : ℚ) / 2097152))).vH := by with_unfolding_all decide
    have hd : (2307 : ℚ) / 100 ≤ (stepIter 16 (simInit ((31457625 : ℚ) / 2097152))).d := by
      with_unfolding_all decide
    exact not_lt.mpr (le_trans hd (stepIter_d_mono 784 _ hv))
  have c25 : ¬ simulateRange ((62914875 : ℚ) / 4194304) < (2307 : ℚ) / 100 := by
    rw [simulateRange_eq_stepIter, show (800 : Nat) = 16 + 784 from rfl, stepIter_add]
    have hv : 0 ≤ (stepIter 16 (simInit ((62914875 : ℚ) / 4194304))).vH := by with_unfolding_all decide
    have hd : (2307 : ℚ) / 100 ≤ (stepIter 16 (simInit ((62914875 : ℚ) / 4194304))).d := by
      with_unfolding_all decide
    exact not_lt.mpr (le_trans hd (stepIter_d_mono 784 _ hv))
  have c26 : ¬ simulateRange ((125829375 : ℚ) / 8388608) < (2307 : ℚ) / 100 := by
    rw [simulateRange_eq_stepIter, show (800 : Nat) = 16 + 784 from rfl, stepIter_add]
    have hv : 0 ≤ (stepIter 16 (simInit ((125829375 : ℚ) / 8388608))).vH := by with_unfolding_all decide
    have hd : (2307 : ℚ) / 100 ≤ (stepIter 16 (simInit ((125829375 : ℚ) / 8388608))).d := by
      with_unfolding_all decide
    exact not_lt.mpr (le_trans hd (stepIter_d_mono 784 _ hv))
  have c27 : ¬ simulateRange ((251658375 : ℚ) / 16777216) < (2307 : ℚ) / 100 := by
    rw [simulateRange_eq_stepIter, show (800 : Nat) = 16 + 784 from rfl, stepIter_add]
    have hv : 0 ≤ (stepIter 16 (simInit ((251658375 : ℚ) / 16777216))).vH := by with_unfolding_all decide
    have hd : (2307 : ℚ) / 100 ≤ (stepIter 16 (simInit ((251658375 : ℚ) / 16777216))).d := by
      with_unfolding_all decide
    exact not_lt.mpr (le_trans hd (stepIter_d_mono 784 _ hv))
  have c28 : simulateRange ((503316375 : ℚ) / 33554432) < (2307 : ℚ) / 100 := by
    rw [simulateRange_eq_stepIter, show (800 : Nat) = 16 + 784 from rfl, stepIter_add,
      stepIter_landed 784 _ (by with_unfolding_all decide)]
    with_unfolding_all decide
  have c29 : ¬ simulateRange ((1006633125 : ℚ) / 67108864) < (2307 : ℚ) / 100 := by
    rw [simulateRange_eq_stepIter, show (800 : Nat) = 16 + 784 from rfl, stepIter_add]
    have hv : 0 ≤ (stepIter 16 (simInit ((1006633125 : ℚ) / 67108864))).vH := by with_unfolding_all decide
    have hd : (2307 : ℚ) / 100 ≤ (stepIter 16 (simInit ((1006633125 : ℚ) / 67108864))).d := by
      with_unfolding_all decide
    exact not_lt.mpr (le_trans hd (stepIter_d_mono 784 _ hv))
  have c30 : simulateRange ((2013265875 : ℚ) / 134217728) < (2307 : ℚ) / 100 := by
    rw [simulateRange_eq_stepIter, show (800 : Nat) = 16 + 784 from rfl, stepIter_add,
      stepIter_landed 784 _ (by with_unfolding_all decide)]
    with_unfolding_all decide
  have hsolve : solveLoop 30 0 3000 ((2307 : ℚ) / 100) = (((2013265875 : ℚ) / 134217728), ((1006633125 : ℚ) / 67108864)) := by
    rw [show (30) = (29) + 1 from rfl, solveLoop_succ]
    rw [show (((0 : ℚ) + (3000 : ℚ)) / 2 : ℚ) = (1500 : ℚ) by norm_num]
    rw [if_neg c1]
    rw [show (29) = (28) + 1 from rfl, solveLoop_succ]
    rw [show (((0 : ℚ) + (1500 : ℚ)) / 2 : ℚ) = (750 : ℚ) by norm_num]
    rw [if_neg c2]
    rw [show (28) = (27) + 1 from rfl, solveLoop_succ]
    rw [show (((0 : ℚ) + (750 : ℚ)) / 2 : ℚ) = (375 : ℚ) by norm_num]
    rw [if_neg c3]
    rw [show (27) = (26) + 1 from rfl, solveLoop_succ]
    rw [show (((0 : ℚ) + (375 : ℚ)) / 2 : ℚ) = ((375 : ℚ) / 2) by norm_num]
    rw [if_neg c4]
    rw [show (26) = (25) + 1 from rfl, solveLoop_succ]
    rw [show (((0 : ℚ) + ((375 : ℚ) / 2)) / 2 : ℚ) = ((375 : ℚ) / 4) by norm_num]
    rw [if_neg c5]
    rw [show (25) = (24) + 1 from rfl, solveLoop_succ]
    rw [show (((0 : ℚ) + ((375 : ℚ) / 4)) / 2 : ℚ) = ((375 : ℚ) / 8) by norm_num]
    rw [if_neg c6]
    rw [show (24) = (23) + 1 from rfl, solveLoop_succ]
    rw [show (((0 : ℚ) + ((375 : ℚ) / 8)) / 2 : ℚ) = ((375 : ℚ) / 16) by norm_num]
    rw [if_neg c7]
    rw [show (23) = (22) + 1 from rfl, solveLoop_succ]
    rw [show (((0 : ℚ) + ((375 : ℚ) / 16)) / 2 : ℚ) = ((375 : ℚ) / 32) by norm_num]
    rw [if_pos c8]
    rw [show (22) = (21) + 1 from rfl, solveLoop_succ]
    rw [show ((((375 : ℚ) / 32) + ((375 : ℚ) / 16)) / 2 : ℚ) = ((1125 : ℚ) / 64) by norm_num]
    rw [if_neg c9]
    rw [show (21) = (20) + 1 from rfl, solveLoop_succ]
    rw [show ((((375 : ℚ) / 32) + ((1125 : ℚ) / 64)) / 2 : ℚ) = ((1875 : ℚ) / 128) by norm_num]
    rw [if_pos c10]
    rw [show (20) = (19) + 1 from rfl, solveLoop_succ]
    rw [show ((((1875 : ℚ) / 128) + ((1125 : ℚ) / 64)) / 2 : ℚ) = ((4125 : ℚ) / 256) by norm_num]
    rw [if_neg c11]
    rw [show (19) = (18) + 1 from rfl, solveLoop_succ]
    rw [show ((((1875 : ℚ) / 128) + ((4125 : ℚ) / 256)) / 2 : ℚ) = ((7875 : ℚ) / 512) by norm_num]
    rw [if_neg c12]
    rw [show (18) = (17) + 1 from rfl, solveLoop_succ]
    rw [show ((((1875 : ℚ) / 128) + ((7875 : ℚ) / 512)) / 2 : ℚ) = ((15375 : ℚ) / 1024) by norm_num]
    rw [if_neg c13]
    rw [show (17) = (16) + 1 from rfl, solveLoop_succ]
    rw [show ((((1875 : ℚ) / 128) + ((15375 : ℚ) / 1024)) / 2 : ℚ) = ((30375 : ℚ) / 2048) by norm_num]
    rw [if_pos c14]
    rw [show (16) = (15) + 1 from rfl, solveLoop_succ]
    rw [show ((((30375 : ℚ) / 2048) + ((15375 : ℚ) / 1024)) / 2 : ℚ) = ((61125 : ℚ) / 4096) by norm_num]
    rw [if_pos c15]
    rw [show (15) = (14) + 1 from rfl, solveLoop_succ]
    rw [show ((((61125 : ℚ) / 4096) + ((15375 : ℚ) / 1024)) / 2 : ℚ) = ((122625 : ℚ) / 8192) by norm_num]
    rw [if_pos c16]
    rw [show (14) = (13) + 1 from rfl, solveLoop_succ]
    rw [show ((((122625 : ℚ) / 8192) + ((15375 : ℚ) / 1024)) / 2 : ℚ) = ((245625 : ℚ) / 16384) by norm_num]
    rw [if_pos c17]
    rw [show (13) = (12) + 1 from rfl, solveLoop_succ]
    rw [show ((((245625 : ℚ) / 16384) + ((15375 : ℚ) / 1024)) / 2 : ℚ) = ((491625 : ℚ) / 32768) by norm_num]
    rw [if_neg c18]
    rw [show (12) = (11) + 1 from rfl, solveLoop_succ]
    rw [show ((((245625 : ℚ) / 16384) + ((491625 : ℚ) / 32768)) / 2 : ℚ) = ((982875 : ℚ) / 65536) by norm_num]
    rw [if_pos c19]
    rw [show (11) = (10) + 1 from rfl, solveLoop_succ]
    rw [show ((((982875 : ℚ) / 65536) + ((491625 : ℚ) / 32768)) / 2 : ℚ) = ((1966125 : ℚ) / 131072) by norm_num]
    rw [if_neg c20]
    rw [show (10) = (9) + 1 from rfl, solveLoop_succ]
    rw [show ((((982875 : ℚ) / 65536) + ((1966125 : ℚ) / 131072)) / 2 : ℚ) = ((3931875 : ℚ) / 262144) by norm_num]
    rw [if_pos c21]
    rw [show (9) = (8) + 1 from rfl, solveLoop_succ]
    rw [show ((((3931875 : ℚ) / 262144) + ((1966125 : ℚ) / 131072)) / 2 : ℚ) = ((7864125 : ℚ) / 524288) by norm_num]
    rw [if_pos c22]
    rw [show (8) = (7) + 1 from rfl, solveLoop_succ]
    rw [show ((((7864125 : ℚ) / 524288) + ((1966125 : ℚ) / 131072)) / 2 : ℚ) = ((15728625 : ℚ) / 1048576) by norm_num]
    rw [if_pos c23]
    rw [show (7) = (6) + 1 from rfl, solveLoop_succ]
    rw [show ((((15728625 : ℚ) / 1048576) + ((1966125 : ℚ) / 131072)) / 2 : ℚ) = ((31457625 : ℚ) / 2097152) by norm_num]
    rw [if_neg c24]
    rw [show (6) = (5) + 1 from rfl, solveLoop_succ]
    rw [show ((((15728625 : ℚ) / 1048576) + ((31457625 : ℚ) / 2097152)) / 2 : ℚ) = ((62914875 : ℚ) / 4194304) by norm_num]
    rw [if_neg c25]
    rw [show (5) = (4) + 1 from rfl, solveLoop_succ]
    rw [show ((((15728625 : ℚ) / 1048576) + ((62914875 : ℚ) / 4194304)) / 2 : ℚ) = ((125829375 : ℚ) / 8388608) by norm_num]
    rw [if_neg c26]
    rw [show (4) = (3) + 1 from rfl, solveLoop_succ]
    rw [show ((((15728625 : ℚ) / 1048576) + ((125829375 : ℚ) / 8388608)) / 2 : ℚ) = ((251658375 : ℚ) / 16777216) by norm_num]
    rw [if_neg c27]
    rw [show (3) = (2) + 1 from rfl, solveLoop_succ]
    rw [show ((((15728625 : ℚ) / 1048576) + ((251658375 : ℚ) / 16777216)) / 2 : ℚ) = ((503316375 : ℚ) / 33554432) by norm_num]
    rw [if_pos c28]
    rw [show (2) = (1) + 1 from rfl, solveLoop_succ]
    rw [show ((((503316375 : ℚ) / 33554432) + ((251658375 : ℚ) / 16777216)) / 2 : ℚ) = ((1006633125 : ℚ) / 67108864) by norm_num]
    rw [if_neg c29]
    rw [show (1) = (0) + 1 from rfl, solveLoop_succ]
    rw [show ((((503316375 : ℚ) / 33554432) + ((1006633125 : ℚ) / 67108864)) / 2 : ℚ) = ((2013265875 : ℚ) / 134217728) by norm_num]
    rw [if_pos c30]
    rfl
  have hpull : solveForPull ((2307 : ℚ) / 100) = ((4026532125 : ℚ) / 268435456) := by
    unfold solveForPull
    rw [hsolve]
    norm_num
  rw [hpull, simulateRange_eq_stepIter, show (800 : Nat) = 16 + 784 from rfl, stepIter_add,
    stepIter_landed 784 _ (by with_unfolding_all decide)]
  with_unfolding_all decide

theorem squareGrid_rows (g : Grid) (hsq : SquareGrid g) :
    ∀ i, i < g.length → (g.getD i []).length = g.length := by
  intro i hi
  apply hsq
  rw [List.getD_eq_getElem?_getD, List.getElem?_eq_getElem hi]
  exact List.getElem_mem hi

theorem offsets9_small : ∀ d ∈ offsets9, d.1.natAbs ≤ 1 ∧ d.2.natAbs ≤ 1 := by
  decide

theorem offsets9_complete : ∀ d1 d2 : Int, d1.natAbs ≤ 1 → d2.natAbs ≤ 1 →
    (d1, d2) ∈ offsets9 := by
  intro d1 d2 h1 h2
  have hd1 : d1 = -1 ∨ d1 = 0 ∨ d1 = 1 := by omega
  have hd2 : d2 = -1 ∨ d2 = 0 ∨ d2 = 1 := by omega
  rcases hd1 with h | h | h <;> rcases hd2 with h' | h' | h' <;> subst h <;> subst h' <;>
    simp [offsets9]

theorem floodPushes_mem (r c : Int) (b : Nat × Nat)
    (h1 : ((b.1 : Int) - r).natAbs ≤ 1) (h2 : ((b.2 : Int) - c).natAbs ≤ 1) :
    ((b.1 : Int), (b.2 : Int)) ∈ floodPushes r c := by
  unfold floodPushes
  rw [List.mem_reverse, List.mem_map]
  refine ⟨((b.1 : Int) - r, (b.2 : Int) - c), ?_, ?_⟩
  · exact offsets9_complete _ _ h1 h2
  · rw [Prod.mk.injEq]
    exact ⟨by ring, by ring⟩

theorem floodPushes_adj (r c : Int) (hr : 0 ≤ r) (hc : 0 ≤ c)
    (p : Int × Int) (hp : p ∈ floodPushes r c) (hp1 : 0 ≤ p.1) (hp2 : 0 ≤ p.2) :
    chebAdj (r.toNat, c.toNat) (p.1.toNat, p.2.toNat) := by
  unfold floodPushes at hp
  rw [List.mem_reverse, List.mem_map] at hp
  obtain ⟨d, hd, hdp⟩ := hp
  have hsmall := offsets9_small d hd
  constructor
  · show (((r.toNat : Nat) : Int) - ((p.1.toNat : Nat) : Int)).natAbs ≤ 1
    rw [Int.toNat_of_nonneg hr, Int.toNat_of_nonneg hp1, ← hdp]
    simp only []
    have := hsmall.1
    omega
  · show (((c.toNat : Nat) : Int) - ((p.2.toNat : Nat) : Int)).natAbs ≤ 1
    rw [Int.toNat_of_nonneg hc, Int.toNat_of_nonneg hp2, ← hdp]
    simp only []
    have := hsmall.2
    omega

theorem floodLoopF_shape : ∀ (fuel : Nat) (g : Grid) (st : List (Int × Int)),
    (floodLoopF fuel g st).length = g.length ∧
    (∀ i, ((floodLoopF fuel g st).getD i []).length = (g.getD i []).length) := by
  intro fuel
  induction fuel with
  | zero => intro g st; exact ⟨rfl, fun _ => rfl⟩
  | succ f ih =>
    intro g st
    match st with
    | [] => exact ⟨rfl, fun _ => rfl⟩
    | (r, c) :: rest =>
      simp only [floodLoopF]
      by_cases hguard : r < 0 ∨ (g.length : Int) ≤ r ∨ c < 0 ∨ (g.length : Int) ≤ c ∨
          (getCell g r.toNat c.toNat).status ≠ CellStatus.HIDDEN
      · rw [if_pos hguard]
        exact ih g rest
      · rw [if_neg hguard]
        set g' := setCellStatus g r.toNat c.toNat CellStatus.REVEALED with hg'
        have hsh' : g'.length = g.length ∧
            ∀ i, (g'.getD i []).length = (g.getD i []).length := by
          rw [hg']
          exact ⟨length_modifyCell g _ _ _, fun i => getD_row_modifyCell g _ _ _ i⟩
        by_cases hz : (getCell g' r.toNat c.toNat).neighborMines = 0
        · rw [if_pos hz]
          have := ih g' (floodPushes r c ++ rest)
          exact ⟨this.1.trans hsh'.1, fun i => (this.2 i).trans (hsh'.2 i)⟩
        · rw [if_neg hz]
          have := ih g' rest
          exact ⟨this.1.trans hsh'.1, fun i => (this.2 i).trans (hsh'.2 i)⟩

theorem floodLoopF_sound (g0 : Grid) (S : Nat × Nat → Prop)
    (hS : ∀ q, S q → ZeroP g0 q → ∀ b, chebAdj q b → InRangeP g0 b →
      HiddenP g0 b → S b) :
    ∀ (fuel : Nat) (g : Grid) (st : List (Int × Int)),
      FrameRel g0 S g → StackOK g0 S st →
      FrameRel g0 S (floodLoopF fuel g st) := by
  intro fuel
  induction fuel with
  | zero => intro g st hF _; exact hF
  | succ f ih =>
    intro g st hF hStack
    match st with
    | [] => exact hF
    | (r, c) :: rest =>
      simp only [floodLoopF]
      by_cases hguard : r < 0 ∨ (g.length : Int) ≤ r ∨ c < 0 ∨ (g.length : Int) ≤ c ∨
          (getCell g r.toNat c.toNat).status ≠ CellStatus.HIDDEN
      · rw [if_pos hguard]
        exact ih g rest hF (fun p hp => hStack p (List.mem_cons_of_mem _ hp))
      · rw [if_neg hguard]
        push_neg at hguard
        obtain ⟨hr0, hrlt, hc0, hclt, hhid⟩ := hguard
        have hrow := hidden_inbounds g r.toNat c.toNat hhid
        -- the popped cell is genuinely hidden in the original grid too
        have hcellEq : getCell g r.toNat c.toNat = getCell g0 r.toNat c.toNat := by
          rcases hF.2.2 r.toNat c.toNat with h | h
          · exact h
          · exfalso
            rw [h.2.2] at hhid
            simp at hhid
        have hhid0 : (getCell g0 r.toNat c.toNat).status = CellStatus.HIDDEN := by
          rw [← hcellEq]; exact hhid
        have hinr0 : InRangeP g0 (r.toNat, c.toNat) := by
          constructor
          · rw [← hF.1]; omega
          · rw [← hF.1]; omega
        have hSmem : S (r.toNat, c.toNat) :=
          hStack (r, c) (List.mem_cons_self _ _) hr0 hc0 hinr0 hhid0
        set g' := setCellStatus g r.toNat c.toNat CellStatus.REVEALED with hg'
        have hget' : getCell g' r.toNat c.toNat =
            { getCell g r.toNat c.toNat with status := CellStatus.REVEALED } := by
          rw [hg']
          unfold setCellStatus
          rw [getCell_modifyCell, if_pos ⟨rfl, rfl, hrow.1, hrow.2⟩]
        have hgetO : ∀ i j, ¬(i = r.toNat ∧ j = c.toNat) →
            getCell g' i j = getCell g i j := by
          intro i j hne
          rw [hg']
          unfold setCellStatus
          rw [getCell_modifyCell, if_neg (by tauto)]
        have hF' : FrameRel g0 S g' := by
          refine ⟨?_, ?_, ?_⟩
          · rw [hg']
            unfold setCellStatus
            rw [length_modifyCell]
            exact hF.1
          · intro i
            rw [hg']
            unfold setCellStatus
            rw [getD_row_modifyCell]
            exact hF.2.1 i
          · intro i j
            by_cases hij : i = r.toNat ∧ j = c.toNat
            · obtain ⟨rfl, rfl⟩ := hij
              right
              refine ⟨hSmem, hhid0, ?_⟩
              rw [hget', hcellEq]
            · rw [hgetO i j hij]
              exact hF.2.2 i j
        by_cases hz : (getCell g' r.toNat c.toNat).neighborMines = 0
        · rw [if_pos hz]
          have hzero0 : ZeroP g0 (r.toNat, c.toNat) := by
            unfold ZeroP
            rw [hget', hcellEq] at hz
            exact hz
          apply ih g' (floodPushes r c ++ rest) hF'
          intro p hp hp1 hp2 hpin hphid
          rcases List.mem_append.mp hp with hmem | hmem
          · exact hS (r.toNat, c.toNat) hSmem hzero0 _
              (floodPushes_adj r c hr0 hc0 p hmem hp1 hp2) hpin hphid
          · exact hStack p (List.mem_cons_of_mem _ hmem) hp1 hp2 hpin hphid
        · rw [if_neg hz]
          exact ih g' rest hF' (fun p hp => hStack p (List.mem_cons_of_mem _ hp))

theorem frame_hidden_eq (g0 : Grid) (S : Nat × Nat → Prop) (g : Grid)
    (hF : FrameRel g0 S g) (i j : Nat)
    (hhid : (getCell g i j).status = CellStatus.HIDDEN) :
    getCell g i j = getCell g0 i j := by
  rcases hF.2.2 i j with h | h
  · exact h
  · exfalso
    rw [h.2.2] at hhid
    simp at hhid

theorem weakFrame_reveal (g0 g : Grid) (rn cn : Nat) (hW : WeakFrame g0 g)
    (hhid : (getCell g rn cn).status = CellStatus.HIDDEN) :
    WeakFrame g0 (setCellStatus g rn cn CellStatus.REVEALED) := by
  have hrow := hidden_inbounds g rn cn hhid
  refine ⟨?_, ?_, ?_⟩
  · unfold setCellStatus
    rw [length_modifyCell]
    exact hW.1
  · intro i
    unfold setCellStatus
    rw [getD_row_modifyCell]
    exact hW.2.1 i
  · intro i j
    by_cases hij : i = rn ∧ j = cn
    · obtain ⟨rfl, rfl⟩ := hij
      right
      refine ⟨trivial, ?_, ?_⟩
      · rw [← frame_hidden_eq g0 _ g hW i j hhid]
        exact hhid
      · unfold setCellStatus
        rw [getCell_modifyCell, if_pos ⟨rfl, rfl, hrow.1, hrow.2⟩]
        rw [frame_hidden_eq g0 _ g hW i j hhid]
    · unfold setCellStatus
      rw [getCell_modifyCell, if_neg (by tauto)]
      exact hW.2.2 i j

theorem floodLoopF_closed (g0 : Grid) :
    ∀ (fuel : Nat) (g : Grid) (st : List (Int × Int)),
      floodMeasure g st < fuel →
      WeakFrame g0 g → PendingOK g0 g st →
      ∀ q : Nat × Nat, (getCell g0 q.1 q.2).status = CellStatus.HIDDEN →
        (getCell (floodLoopF fuel g st) q.1 q.2).status = CellStatus.REVEALED →
        (getCell g0 q.1 q.2).neighborMines = 0 →
        ∀ b : Nat × Nat, chebAdj q b → InRangeP g0 b →
          (getCell (floodLoopF fuel g st) b.1 b.2).status ≠ CellStatus.HIDDEN := by
  intro fuel
  induction fuel with
  | zero => intro g st hm; omega
  | succ f ih =>
    intro g st hm hW hPend
    match st with
    | [] =>
      intro q hq0 hqrev hqz b hadj hbin hbhid
      exact absurd (hPend q hq0 hqrev hqz b hadj hbin hbhid) (List.not_mem_nil _)
    | (r, c) :: rest =>
      simp only [floodLoopF]
      by_cases hguard : r < 0 ∨ (g.length : Int) ≤ r ∨ c < 0 ∨ (g.length : Int) ≤ c ∨
          (getCell g r.toNat c.toNat).status ≠ CellStatus.HIDDEN
      · rw [if_pos hguard]
        apply ih g rest (by simp only [floodMeasure, List.length_cons] at hm ⊢; omega) hW
        -- the popped entry cannot be a pending in-range hidden cell
        intro q hq0 hqrev hqz b hadj hbin hbhid
        have hmem := hPend q hq0 hqrev hqz b hadj hbin hbhid
        rcases List.mem_cons.mp hmem with heq | hmem'
        · exfalso
          have hb1 : (b.1 : Int) = r := congrArg Prod.fst heq
          have hb2 : (b.2 : Int) = c := congrArg Prod.snd heq
          have hblen : b.1 < g.length := by rw [hW.1]; exact hbin.1
          have hblen2 : b.2 < g.length := by rw [hW.1]; exact hbin.2
          rcases hguard with h | h | h | h | h
          · omega
          · omega
          · omega
          · omega
          · apply h
            rw [← hb1, ← hb2, Int.toNat_natCast, Int.toNat_natCast]
            exact hbhid
        · exact hmem'
      · rw [if_neg hguard]
        push_neg at hguard
        obtain ⟨hr0, hrlt, hc0, hclt, hhid⟩ := hguard
        have hrow := hidden_inbounds g r.toNat c.toNat hhid
        have hcellEq : getCell g r.toNat c.toNat = getCell g0 r.toNat c.toNat :=
          frame_hidden_eq g0 _ g hW r.toNat c.toNat hhid
        set g' := setCellStatus g r.toNat c.toNat CellStatus.REVEALED with hg'
        have hget' : getCell g' r.toNat c.toNat =
            { getCell g r.toNat c.toNat with status := CellStatus.REVEALED } := by
          rw [hg']
          unfold setCellStatus
          rw [getCell_modifyCell, if_pos ⟨rfl, rfl, hrow.1, hrow.2⟩]
        have hgetO : ∀ i j, ¬(i = r.toNat ∧ j = c.toNat) →
            getCell g' i j = getCell g i j := by
          intro i j hne
          rw [hg']
          unfold setCellStatus
          rw [getCell_modifyCell, if_neg (by tauto)]
        have hW' : WeakFrame g0 g' := weakFrame_reveal g0 g r.toNat c.toNat hW hhid
        have hdec := hiddenCount_reveal_lt g r.toNat c.toNat hhid
        rw [← hg'] at hdec
        have hPend' : ∀ tail : List (Int × Int),
            (∀ p ∈ rest, p ∈ tail) →
            ((getCell g0 r.toNat c.toNat).neighborMines = 0 →
              ∀ b : Nat × Nat, chebAdj (r.toNat, c.toNat) b → InRangeP g0 b →
              (getCell g' b.1 b.2).status = CellStatus.HIDDEN →
              ((b.1 : Int), (b.2 : Int)) ∈ tail) →
            PendingOK g0 g' tail := by
          intro tail hrest htarget
          intro q hq0 hqrev hqz b hadj hbin hbhid
          have hbneq : ¬(b.1 = r.toNat ∧ b.2 = c.toNat) := by
            intro hbeq
            rw [show b.1 = r.toNat from hbeq.1, show b.2 = c.toNat from hbeq.2,
              hget'] at hbhid
            simp at hbhid
          by_cases hq : q.1 = r.toNat ∧ q.2 = c.toNat
          · apply htarget
            · rw [← hq.1, ← hq.2]
              exact hqz
            · rw [show (r.toNat, c.toNat) = q from Prod.ext hq.1.symm hq.2.symm]
              exact hadj
            · exact hbin
            · exact hbhid
          · have hqrevg : (getCell g q.1 q.2).status = CellStatus.REVEALED := by
              rw [← hgetO q.1 q.2 hq]
              exact hqrev
            have hbhidg : (getCell g b.1 b.2).status = CellStatus.HIDDEN := by
              rw [← hgetO b.1 b.2 hbneq]
              exact hbhid
            have hmem := hPend q hq0 hqrevg hqz b hadj hbin hbhidg
            rcases List.mem_cons.mp hmem with heq | hmem'
            · exfalso
              apply hbneq
              have hb1 : (b.1 : Int) = r := congrArg Prod.fst heq
              have hb2 : (b.2 : Int) = c := congrArg Prod.snd heq
              constructor
              · omega
              · omega
            · exact hrest _ hmem'
        by_cases hz : (getCell g' r.toNat c.toNat).neighborMines = 0
        · rw [if_pos hz]
          apply ih g' (floodPushes r c ++ rest)
          · simp only [floodMeasure, List.length_append, List.length_cons] at hm ⊢
            have : (floodPushes r c).length = 9 := by simp [floodPushes, offsets9]
            omega
          · exact hW'
          · apply hPend' (floodPushes r c ++ rest)
            · intro p hp; exact List.mem_append.mpr (Or.inr hp)
            · intro _ b hadj _ _
              apply List.mem_append.mpr
              left
              apply floodPushes_mem r c b
              · have h1 := hadj.1
                simp only [] at h1
                rw [Int.toNat_of_nonneg hr0] at h1
                omega
              · have h2 := hadj.2
                simp only [] at h2
                rw [Int.toNat_of_nonneg hc0] at h2
                omega
        · rw [if_neg hz]
          apply ih g' rest
          · simp only [floodMeasure, List.length_cons] at hm ⊢
            omega
          · exact hW'
          · apply hPend' rest (fun p hp => hp)
            intro hq0z
            exfalso
            apply hz
            rw [hget', hcellEq]
            exact hq0z

theorem offsets8_complete : ∀ d1 d2 : Int, d1.natAbs ≤ 1 → d2.natAbs ≤ 1 →
    ¬(d1 = 0 ∧ d2 = 0) → (d1, d2) ∈ offsets8 := by
  intro d1 d2 h1 h2 hne
  have hd1 : d1 = -1 ∨ d1 = 0 ∨ d1 = 1 := by omega
  have hd2 : d2 = -1 ∨ d2 = 0 ∨ d2 = 1 := by omega
  rcases hd1 with h | h | h <;> rcases hd2 with h' | h' | h' <;> subst h <;> subst h' <;>
    simp [offsets8] at hne ⊢

/-- A cell with an accurate zero count has no mine among its in-range
8-neighborhood. -/
theorem count8_zero_no_mine (g : Grid) (bq : Nat × Nat)
    (hz : neighborMineCount8 g g.length bq.1 bq.2 = 0) (aq : Nat × Nat)
    (ha : InRangeP g aq) (hadj : chebAdj bq aq) (hne : ¬(aq.1 = bq.1 ∧ aq.2 = bq.2)) :
    (getCell g aq.1 aq.2).isMine = false := by
  by_contra hmine'
  have hmine'' : (getCell g aq.1 aq.2).isMine = true := by simpa using hmine'
  have hall : ∀ d ∈ offsets8, adjMineB g g.length bq.1 bq.2 d = false := by
    unfold neighborMineCount8 at hz
    rw [List.length_eq_zero] at hz
    intro d hd
    have := List.filter_eq_nil_iff.mp hz d hd
    simpa using this
  have hmem : ((aq.1 : Int) - bq.1, (aq.2 : Int) - bq.2) ∈ offsets8 := by
    apply offsets8_complete
    · have := hadj.1
      omega
    · have := hadj.2
      omega
    · intro hzero
      apply hne
      constructor
      · have := hzero.1
        omega
      · have := hzero.2
        omega
  have htrue : adjMineB g g.length bq.1 bq.2 ((aq.1 : Int) - bq.1, (aq.2 : Int) - bq.2) = true := by
    unfold adjMineB
    simp only []
    rw [show (bq.1 : Int) + ((aq.1 : Int) - bq.1) = (aq.1 : Int) by ring]
    rw [show (bq.2 : Int) + ((aq.2 : Int) - bq.2) = (aq.2 : Int) by ring]
    rw [Int.toNat_natCast, Int.toNat_natCast]
    simp only [Bool.and_eq_true, decide_eq_true_eq]
    have h1 := ha.1
    have h2 := ha.2
    refine ⟨⟨⟨⟨by omega, by omega⟩, by omega⟩, by omega⟩, hmine''⟩
  rw [hall _ hmem] at htrue
  cases htrue

theorem floodLoopF_preserves_revealed (fuel : Nat) (g : Grid)
    (st : List (Int × Int)) (i j : Nat)
    (h : (getCell g i j).status = CellStatus.REVEALED) :
    (getCell (floodLoopF fuel g st) i j).status = CellStatus.REVEALED := by
  have hF := floodLoopF_sound g (fun _ => True) (fun _ _ _ _ _ _ _ => trivial)
    fuel g st ⟨rfl, fun _ => rfl, fun _ _ => Or.inl rfl⟩ (fun _ _ _ _ _ _ => trivial)
  rcases hF.2.2 i j with he | he
  · rw [he]; exact h
  · rw [he.2.2]

theorem floodLoopF_start_revealed (fuel : Nat) (g : Grid) (r c : Int)
    (rest : List (Int × Int)) (hm : floodMeasure g ((r, c) :: rest) < fuel)
    (hr0 : 0 ≤ r) (hrlt : r < (g.length : Int)) (hc0 : 0 ≤ c) (hclt : c < (g.length : Int))
    (hhid : (getCell g r.toNat c.toNat).status = CellStatus.HIDDEN) :
    (getCell (floodLoopF fuel g ((r, c) :: rest)) r.toNat c.toNat).status =
      CellStatus.REVEALED := by
  match fuel with
  | 0 => omega
  | f + 1 =>
    simp only [floodLoopF]
    rw [if_neg (by push_neg; exact ⟨by omega, by omega, by omega, by omega, hhid⟩)]
    have hrow := hidden_inbounds g r.toNat c.toNat hhid
    have hget' : getCell (setCellStatus g r.toNat c.toNat CellStatus.REVEALED)
        r.toNat c.toNat =
        { getCell g r.toNat c.toNat with status := CellStatus.REVEALED } := by
      unfold setCellStatus
      rw [getCell_modifyCell, if_pos ⟨rfl, rfl, hrow.1, hrow.2⟩]
    by_cases hz : (getCell (setCellStatus g r.toNat c.toNat CellStatus.REVEALED)
        r.toNat c.toNat).neighborMines = 0
    · rw [if_pos hz]
      apply floodLoopF_preserves_revealed
      rw [hget']
    · rw [if_neg hz]
      apply floodLoopF_preserves_revealed
      rw [hget']

/-- **C2 (amended).** On a square grid with accurate counts, revealing a
hidden non-mine zero cell returns `exploded = false` and sets to `REVEALED`
exactly the *hidden* cells that are in, or 8-adjacent to, the maximal
8-connected region of hidden zero-count cells containing the start;
non-hidden cells — flagged or already revealed — block the fill and are
left exactly unchanged; no mine cell is touched, and every cell is either
unchanged or was hidden, lies in the reveal set, and changed only its
status to `REVEALED` (in particular no cell's `isMine` or `neighborMines`
changes). -/
theorem revealCell_flood_spec (g : Grid) (row col : Nat)
    (_hsq : SquareGrid g) (hrow : row < g.length) (hcol : col < g.length)
    (hhid : (getCell g row col).status = CellStatus.HIDDEN)
    (hmine : (getCell g row col).isMine = false)
    (hzero : (getCell g row col).neighborMines = 0)
    (hacc : AccurateCounts g) :
    (revealCell g row col).2 = false ∧
    (∀ i j, i < g.length → j < g.length →
      ((getCell (revealCell g row col).1 i j).status = CellStatus.REVEALED ↔
        (getCell g i j).status = CellStatus.REVEALED ∨
          RevealTarget g (row, col) (i, j))) ∧
    (∀ i j, (getCell g i j).isMine = true →
      getCell (revealCell g row col).1 i j = getCell g i j) ∧
    (∀ i j, (getCell (revealCell g row col).1 i j).isMine = (getCell g i j).isMine ∧
      (getCell (revealCell g row col).1 i j).neighborMines =
        (getCell g i j).neighborMines) ∧
    (∀ i j, (getCell g i j).status ≠ CellStatus.HIDDEN →
      getCell (revealCell g row col).1 i j = getCell g i j) ∧
    (∀ i j, getCell (revealCell g row col).1 i j = getCell g i j ∨
      (RevealTarget g (row, col) (i, j) ∧
        (getCell g i j).status = CellStatus.HIDDEN ∧
        getCell (revealCell g row col).1 i j =
          { getCell g i j with status := CellStatus.REVEALED })) := by
  have hres : revealCell g row col =
      (floodLoop g [((row : Int), (col : Int))], false) := by
    unfold revealCell
    rw [copyGrid_eq]
    rw [if_neg (by simp [hhid]), if_neg (by simp [hmine])]
  rw [hres]
  simp only []
  set fuel := floodMeasure g [((row : Int), (col : Int))] + 1 with hfuel
  have hFdef : floodLoop g [((row : Int), (col : Int))] =
      floodLoopF fuel g [((row : Int), (col : Int))] := rfl
  rw [hFdef]
  have hmlt : floodMeasure g [((row : Int), (col : Int))] < fuel := Nat.lt_succ_self _
  have hSclosure : ∀ q, RevealTarget g (row, col) q → ZeroP g q →
      ∀ b, chebAdj q b → InRangeP g b → HiddenP g b → RevealTarget g (row, col) b := by
    intro q hq hqz b hadj hbin hbhid
    obtain ⟨hqin, hqhid, a, hZa, haq⟩ := hq
    exact ⟨hbin, hbhid, q, Relation.ReflTransGen.tail hZa ⟨haq, hqin, hqhid, hqz⟩, hadj⟩
  have hstartS : RevealTarget g (row, col) (row, col) :=
    ⟨⟨hrow, hcol⟩, hhid, (row, col), Relation.ReflTransGen.refl, by omega, by omega⟩
  have hStackInit : StackOK g (RevealTarget g (row, col)) [((row : Int), (col : Int))] := by
    intro q hq hq1 hq2 hqin hqhid
    rcases List.mem_singleton.mp hq with rfl
    simpa using hstartS
  have hsound := floodLoopF_sound g (RevealTarget g (row, col)) hSclosure fuel g
    [((row : Int), (col : Int))]
    ⟨rfl, fun _ => rfl, fun _ _ => Or.inl rfl⟩ hStackInit
  have hclosed := floodLoopF_closed g fuel g [((row : Int), (col : Int))] hmlt
    ⟨rfl, fun _ => rfl, fun _ _ => Or.inl rfl⟩
    (by
      intro q hq0 hqrev hqz b hadj hbin hbhid
      rw [hq0] at hqrev
      cases hqrev)
  have hstartRev : (getCell (floodLoopF fuel g [((row : Int), (col : Int))]) row col).status =
      CellStatus.REVEALED := by
    have h := floodLoopF_start_revealed fuel g (row : Int) (col : Int) [] hmlt
      (by omega) (by omega) (by omega) (by omega)
      (by simpa using hhid)
    simpa using h
  have hZfacts : ∀ a, ZComp g (row, col) a →
      (getCell (floodLoopF fuel g [((row : Int), (col : Int))]) a.1 a.2).status =
        CellStatus.REVEALED ∧
      HiddenP g a ∧ InRangeP g a ∧ ZeroP g a := by
    intro a ha
    induction ha with
    | refl => exact ⟨hstartRev, hhid, ⟨hrow, hcol⟩, hzero⟩
    | @tail b y hZb hstep ih =>
      obtain ⟨hadj, hyin, hyhid, hyz⟩ := hstep
      have hnothid := hclosed b ih.2.1 ih.1 ih.2.2.2 y hadj hyin
      rcases hsound.2.2 y.1 y.2 with he | he
      · exfalso
        apply hnothid
        rw [he]
        exact hyhid
      · exact ⟨by rw [he.2.2], hyhid, hyin, hyz⟩
  have hZnm : ∀ a', ZComp g (row, col) a' → (getCell g a'.1 a'.2).isMine = false ∧
      ZeroP g a' ∧ InRangeP g a' := by
    intro a' ha'
    induction ha' with
    | refl => exact ⟨hmine, hzero, hrow, hcol⟩
    | @tail b y hZb hstep ihy =>
      obtain ⟨hadj2, hyin, hyhid, hyz⟩ := hstep
      refine ⟨?_, hyz, hyin⟩
      by_cases heq : y.1 = b.1 ∧ y.2 = b.2
      · rw [heq.1, heq.2]
        exact ihy.1
      · have hcount : neighborMineCount8 g g.length b.1 b.2 = 0 := by
          rw [← hacc b.1 ihy.2.2.1 b.2 ihy.2.2.2 ihy.1]
          exact ihy.2.1
        exact count8_zero_no_mine g b hcount y hyin hadj2 heq
  refine ⟨by trivial, ?_, ?_, ?_, ?_, ?_⟩
  · intro i j hi hj
    constructor
    · intro hrev
      rcases hsound.2.2 i j with he | he
      · rw [he] at hrev
        exact Or.inl hrev
      · exact Or.inr he.1
    · intro hcase
      rcases hcase with hrev | hT
      · rcases hsound.2.2 i j with he | he
        · rw [he]
          exact hrev
        · rw [he.2.2]
      · obtain ⟨hTin, hThid, a, hZa, hadjT⟩ := hT
        have hfact := hZfacts a hZa
        have hnothid := hclosed a hfact.2.1 hfact.1 hfact.2.2.2 (i, j) hadjT hTin
        rcases hsound.2.2 i j with he | he
        · exfalso
          apply hnothid
          rw [he]
          exact hThid
        · rw [he.2.2]
  · intro i j hm
    rcases hsound.2.2 i j with he | he
    · exact he
    · exfalso
      obtain ⟨hTin, hThid, a, hZa, hadjT⟩ := he.1
      have hafact := hZnm a hZa
      by_cases heq : i = a.1 ∧ j = a.2
      · rw [heq.1, heq.2] at hm
        rw [hafact.1] at hm
        cases hm
      · have hcount : neighborMineCount8 g g.length a.1 a.2 = 0 := by
          rw [← hacc a.1 hafact.2.2.1 a.2 hafact.2.2.2 hafact.1]
          exact hafact.2.1
        have hnm := count8_zero_no_mine g a hcount (i, j) hTin hadjT heq
        rw [hnm] at hm
        cases hm
  · intro i j
    rcases hsound.2.2 i j with he | he
    · rw [he]
      exact ⟨rfl, rfl⟩
    · rw [he.2.2]
      exact ⟨rfl, rfl⟩
  · intro i j hne
    rcases hsound.2.2 i j with he | he
    · exact he
    · exact absurd he.2.1 hne
  · intro i j
    rcases hsound.2.2 i j with he | he
    · exact Or.inl he
    · exact Or.inr ⟨he.1, he.2.1, he.2.2⟩

/-- **C2 (counterexample).** On `cexGrid` all hypotheses of the claim hold
at the hidden zero cell (0,0), and (0,2) belongs to the maximal 8-connected
region of zero-count cells containing (0,0) (via the flagged (0,1)), yet
`revealCell` does not set it to Revealed: the fill only propagates through
*hidden* cells, so the claim's region description is wrong for grids with
flags. -/
theorem revealCell_flood_cex :
    SquareGrid cexGrid ∧
    (getCell cexGrid 0 0).status = CellStatus.HIDDEN ∧
    (getCell cexGrid 0 0).isMine = false ∧
    (getCell cexGrid 0 0).neighborMines = 0 ∧
    AccurateCounts cexGrid ∧
    ZCompOrig cexGrid (0, 0) (0, 2) ∧
    (getCell (revealCell cexGrid 0 0).1 0 2).status ≠ CellStatus.REVEALED := by
  refine ⟨by unfold SquareGrid; decide, by decide, by decide, by decide,
    by unfold AccurateCounts; decide, ?_, by decide⟩
  apply Relation.ReflTransGen.head (b := (0, 1))
  · exact ⟨⟨by decide, by decide⟩, ⟨by decide, by decide⟩, by unfold ZeroP; decide⟩
  · apply Relation.ReflTransGen.head (b := (0, 2))
    · exact ⟨⟨by decide, by decide⟩, ⟨by decide, by decide⟩, by unfold ZeroP; decide⟩
    · exact Relation.ReflTransGen.refl

/-- Witness for the amended C2 on `c2wGrid`. -/
theorem revealCell_flood_spec_witness :
    (revealCell c2wGrid 0 0).2 = false ∧
    (∀ i j, i < c2wGrid.length → j < c2wGrid.length →
      ((getCell (revealCell c2wGrid 0 0).1 i j).status = CellStatus.REVEALED ↔
        (getCell c2wGrid i j).status = CellStatus.REVEALED ∨
          RevealTarget c2wGrid (0, 0) (i, j))) ∧
    (∀ i j, (getCell c2wGrid i j).isMine = true →
      getCell (revealCell c2wGrid 0 0).1 i j = getCell c2wGrid i j) ∧
    (∀ i j, (getCell (revealCell c2wGrid 0 0).1 i j).isMine =
        (getCell c2wGrid i j).isMine ∧
      (getCell (revealCell c2wGrid 0 0).1 i j).neighborMines =
        (getCell c2wGrid i j).neighborMines) ∧
    (∀ i j, (getCell c2wGrid i j).status ≠ CellStatus.HIDDEN →
      getCell (revealCell c2wGrid 0 0).1 i j = getCell c2wGrid i j) ∧
    (∀ i j, getCell (revealCell c2wGrid 0 0).1 i j = getCell c2wGrid i j ∨
      (RevealTarget c2wGrid (0, 0) (i, j) ∧
        (getCell c2wGrid i j).status = CellStatus.HIDDEN ∧
        getCell (revealCell c2wGrid 0 0).1 i j =
          { getCell c2wGrid i j with status := CellStatus.REVEALED })) :=
  revealCell_flood_spec c2wGrid 0 0 (by unfold SquareGrid; decide) (by decide)
    (by decide) (by decide) (by decide) (by decide) (by unfold AccurateCounts; decide)

end BlastSweeper

